import Mathlib

/-!
Verification development for the techdebt-insight analysis-and-scoring
pipeline.  The TypeScript sources (analyzers/complexity.ts,
analyzers/codeSmells.ts, analyzers/security.ts, analyzers/aiCodeDetector.ts
and the scanner that aggregates per-file results into a ScanResult) are
shallowly embedded below: strings are `List Char` / `String`, JavaScript
numbers are `ℚ` where the code divides and `ℕ`/`ℤ` where it counts, and the
JavaScript regular-expression literals are compiled into an explicit
backtracking matcher (`TD.RE`) whose preference order (leftmost position,
alternation in written order, greedy/lazy repetition) models the JS engine.
-/

namespace TD

/-- JavaScript whitespace (the `\s` class and `String.prototype.trim`):
space, tab, LF, VT, FF, CR, NBSP, the Unicode space separators, the
line/paragraph separators and the BOM. -/
def jsIsSpace (c : Char) : Bool :=
  c = ' ' || c = '\t' || c = '\n' ||
  c.toNat = 13 || c.toNat = 11 || c.toNat = 12 ||
  c.toNat = 160 || c.toNat = 5760 ||
  (8192 ≤ c.toNat && c.toNat ≤ 8202) ||
  c.toNat = 8232 || c.toNat = 8233 || c.toNat = 8239 ||
  c.toNat = 8287 || c.toNat = 12288 || c.toNat = 65279

/-- JavaScript `\w`: ASCII letters, digits and underscore. -/
def isWordChar (c : Char) : Bool :=
  ('a' ≤ c && c ≤ 'z') || ('A' ≤ c && c ≤ 'Z') ||
  ('0' ≤ c && c ≤ '9') || c = '_'

/-- `String.prototype.trim`: strip JS whitespace from both ends. -/
def jsTrim (l : List Char) : List Char :=
  ((l.dropWhile jsIsSpace).reverse.dropWhile jsIsSpace).reverse

/-- `String.prototype.split` with a one-character separator: splitting the
empty string gives one empty piece, a trailing separator a trailing empty
piece, exactly as in JavaScript. -/
def jsSplit (sep : Char) : List Char → List (List Char)
  | [] => [[]]
  | c :: rest =>
      if c = sep then [] :: jsSplit sep rest
      else
        match jsSplit sep rest with
        | [] => [[c]]
        | piece :: pieces => (c :: piece) :: pieces

/-- The lines of a file, as the sources compute them: `content.split('\n')`. -/
def linesOf (content : String) : List (List Char) :=
  jsSplit '\n' content.data

/-- `haystack.startsWith(needle)` on character lists. -/
def jsStartsWith : List Char → List Char → Bool
  | [], _ => true
  | _ :: _, [] => false
  | n :: ns, c :: cs => n == c && jsStartsWith ns cs

/-- `haystack.includes(needle)`: substring test (true for the empty needle). -/
def jsIncludes (needle : List Char) : List Char → Bool
  | [] => jsStartsWith needle []
  | c :: cs => jsStartsWith needle (c :: cs) || jsIncludes needle cs

/-- Count of occurrences of a character in a line, as
`(line.match(/x/g) || []).length` counts them for a one-character pattern. -/
def countChar (c : Char) (l : List Char) : ℕ :=
  l.countP (fun d => d == c)

/-- `Math.ceil(n / d)` for natural `n` and positive natural `d`. -/
def ceilDiv (n d : ℕ) : ℕ := (n + d - 1) / d

/-- `Math.round` on a rational, as JavaScript rounds: half goes toward
positive infinity, so `round x = ⌊x + 1/2⌋`. -/
def jsRound (x : ℚ) : ℤ := Rat.floor (x + 1/2)

/-! ## A backtracking regular-expression matcher

The JS regex literals of the analyzers are compiled into this AST.  The
matcher enumerates candidate continuations in the JS engine's preference
order: an alternation tries its left branch first, a greedy star tries the
longest iteration count first, a lazy star the shortest; a repetition whose
body matched the empty string stops iterating (the engine's empty-match
guard).  A match state is `(left, right)`: the characters before the
current position in reverse order, and the characters from it on. -/

inductive RE where
  | eps : RE
  | pred (p : Char → Bool) : RE
  | cat (a b : RE) : RE
  | alt (a b : RE) : RE
  | star (a : RE) (lazy : Bool) : RE
  | look (a : RE) (neg : Bool) : RE
  | lookb (a : RE) (neg : Bool) : RE
  | wordB : RE
  | bos : RE
  | eos : RE

/-- One repetition layer of `star`: `step` is the body's matcher, the fuel
bounds the iteration count (each kept iteration consumes at least one
character, so `right.length + 1` is always enough). -/
def starLoop (step : List Char × List Char → List (List Char × List Char))
    (lazy : Bool) : ℕ → List Char × List Char → List (List Char × List Char)
  | 0, st => [st]
  | fuel + 1, st =>
      let kept := (step st).filter (fun st2 => decide (st2.2.length < st.2.length))
      let deeper := kept.flatMap (fun st2 => starLoop step lazy fuel st2)
      if lazy then st :: deeper else deeper ++ [st]

/-- Word-boundary test between the previous and next character (out of range
counts as a non-word character). -/
def boundaryAt (prev next : Option Char) : Bool :=
  Bool.xor
    (match prev with | some c => isWordChar c | none => false)
    (match next with | some c => isWordChar c | none => false)

/-- All candidate continuations of matching `re` at state `st`, in the JS
engine's preference order; the head of the list is the match the engine
commits to. -/
def matchEnds : RE → List Char × List Char → List (List Char × List Char)
  | .eps, st => [st]
  | .pred p, st =>
      match st.2 with
      | [] => []
      | c :: rest => if p c then [(c :: st.1, rest)] else []
  | .cat a b, st => (matchEnds a st).flatMap (fun st2 => matchEnds b st2)
  | .alt a b, st => matchEnds a st ++ matchEnds b st
  | .star a lazy, st => starLoop (matchEnds a) lazy (st.2.length + 1) st
  | .look a neg, st =>
      if (matchEnds a st).isEmpty = neg then [st] else []
  | .lookb a neg, st =>
      -- `a` is the lookbehind's pattern written reversed; it is run on the
      -- reversed left context, so it succeeds when some pattern instance
      -- ends exactly at the current position.
      if (matchEnds a ([], st.1)).isEmpty = neg then [st] else []
  | .wordB, st => if boundaryAt st.1.head? st.2.head? then [st] else []
  | .bos, st => if st.1.isEmpty then [st] else []
  | .eos, st => if st.2.isEmpty then [st] else []

/-- `regex.test(s)` scan: try each start position left to right. -/
def searchAux (re : RE) : List Char → List Char → Bool
  | left, [] => !(matchEnds re (left, [])).isEmpty
  | left, c :: rest =>
      !(matchEnds re (left, c :: rest)).isEmpty || searchAux re (c :: left) rest

/-- `regex.test(line)` (stateless: no global flag, or `lastIndex = 0`). -/
def reTest (re : RE) (s : List Char) : Bool :=
  searchAux re [] s

/-- Leftmost committed match: scan start positions left to right, return the
first position's committed end state `(consumed-reversed, rest)`. -/
def findAux (re : RE) : List Char → List Char → Option (List Char × List Char)
  | left, [] => (matchEnds re (left, [])).head?
  | left, c :: rest =>
      match (matchEnds re (left, c :: rest)).head? with
      | some st => some st
      | none => findAux re (c :: left) rest

/-- Number of matches of a global regex as `String.match(/…/g)` counts them:
repeated `exec` from the last match's end, bumping one character past an
empty match. -/
def countGlobalAux (re : RE) : ℕ → List Char × List Char → ℕ
  | 0, _ => 0
  | fuel + 1, st =>
      match (matchEnds re st).head? with
      | some st2 =>
          if st2.2.length = st.2.length then
            match st.2 with
            | [] => 1
            | c :: rest => 1 + countGlobalAux re fuel (c :: st.1, rest)
          else 1 + countGlobalAux re fuel st2
      | none =>
          match st.2 with
          | [] => 0
          | c :: rest => countGlobalAux re fuel (c :: st.1, rest)

/-- `(content.match(globalRegex) || []).length`. -/
def countGlobal (re : RE) (s : List Char) : ℕ :=
  countGlobalAux re (s.length + 1) ([], s)

/-- `regex.exec` of a global regex starting at `lastIndex = start`: the end
index of the first match beginning at or after `start`, if any. -/
def execFrom (re : RE) (s : List Char) (start : ℕ) : Option ℕ :=
  if start ≤ s.length then
    match findAux re (s.take start).reverse (s.drop start) with
    | some st => some (s.length - st.2.length)
    | none => none
  else none

/-! ### Regex construction helpers (the compilation of the JS literals) -/

/-- A single literal character. -/
def chr (c : Char) : RE := .pred (fun d => d == c)

/-- A single literal character, case-insensitively (the `/i` flag). -/
def chrCi (c : Char) : RE := .pred (fun d => d.toLower == c.toLower)

/-- An always-failing regex (empty alternation). -/
def reFail : RE := .pred (fun _ => false)

/-- Concatenation of a list of regexes. -/
def cats : List RE → RE
  | [] => .eps
  | [r] => r
  | r :: rest => .cat r (cats rest)

/-- Alternation of a list of regexes, tried in the written order. -/
def alts : List RE → RE
  | [] => reFail
  | [r] => r
  | r :: rest => .alt r (alts rest)

/-- A case-sensitive literal string. -/
def lit (s : String) : RE := cats (s.data.map chr)

/-- A case-insensitive literal string (the `/i` flag). -/
def litCi (s : String) : RE := cats (s.data.map chrCi)

/-- `\s` -/
def sCl : RE := .pred jsIsSpace

/-- `\w` -/
def wCl : RE := .pred isWordChar

/-- `\s*` (greedy). -/
def starS : RE := .star sCl false

/-- `\s+` (greedy). -/
def plusS : RE := .cat sCl starS

/-- `\w+` (greedy). -/
def plusW : RE := .cat wCl (.star wCl false)

/-- `.` without the dotAll flag: any character except a line terminator. -/
def dotCl : RE :=
  .pred (fun c => !(c = '\n' || c.toNat = 13 || c.toNat = 8232 || c.toNat = 8233))

/-- `.*` (greedy). -/
def starDot : RE := .star dotCl false

/-- `[\s\S]` (any character). -/
def anyCl : RE := .pred (fun _ => true)

/-- `r?` (greedy). -/
def optG (r : RE) : RE := .alt r .eps

/-- `r{n,}` (greedy): `n` mandatory copies then a greedy star. -/
def repAtLeast (r : RE) : ℕ → RE
  | 0 => .star r false
  | n + 1 => .cat r (repAtLeast r n)

/-- `[0-9]` -/
def digitCl : RE := .pred (fun c => '0' ≤ c && c ≤ '9')

/-! ## analyzers/complexity.ts -/

/-- The control-flow pattern of `calculateCyclomaticComplexity` for js, ts
and java: `/\b(if|else if|for|while|case|catch|&&|\|\||\\?(?!\.))/g`.
The last alternative is an optional literal backslash followed by a
negative lookahead, so it also matches the empty string at a word boundary
not followed by a dot, exactly as the JS engine reads the literal. -/
def cycPatJs : RE :=
  .cat .wordB (alts [lit "if", lit "else if", lit "for", lit "while",
    lit "case", lit "catch", lit "&&", lit "||",
    .cat (optG (chr '\x5c')) (.look (chr '.') true)])

/-- `/\b(if|elif|for|while|except|and|or)\b/g` (python). -/
def cycPatPy : RE :=
  cats [.wordB, alts [lit "if", lit "elif", lit "for", lit "while",
    lit "except", lit "and", lit "or"], .wordB]

/-- `/\b(if|else if|for|case|&&|\|\|)/g` (go). -/
def cycPatGo : RE :=
  .cat .wordB (alts [lit "if", lit "else if", lit "for", lit "case",
    lit "&&", lit "||"])

/-- `/\b(if|else if|for|while|match|&&|\|\|)/g` (rust). -/
def cycPatRs : RE :=
  .cat .wordB (alts [lit "if", lit "else if", lit "for", lit "while",
    lit "match", lit "&&", lit "||"])

/-- The per-language pattern table of `calculateCyclomaticComplexity`,
falling back to the js pattern for an unknown extension. -/
def cycPattern (ext : String) : RE :=
  if ext = "py" then cycPatPy
  else if ext = "go" then cycPatGo
  else if ext = "rs" then cycPatRs
  else cycPatJs

/-- `calculateCyclomaticComplexity`: base complexity 1 plus one per match of
the per-language control-flow pattern. -/
def calculateCyclomaticComplexity (content : String) (fileExtension : String) : ℕ :=
  1 + countGlobal (cycPattern fileExtension) content.data

/-- The cognitive-complexity incrementor token list per language
(`trimmed.includes(keyword)` is a plain substring test). -/
def cogKeywords (ext : String) : List String :=
  if ext = "py" then ["if", "elif", "for", "while", "except", "and", "or"]
  else if ext = "go" then ["if", "else if", "for", "case", "&&", "||"]
  else if ext = "rs" then ["if", "else if", "for", "while", "match", "&&", "||"]
  else ["if", "else if", "for", "while", "case", "catch", "&&", "||", "?"]

/-- First committed capture of `(?:starter₁|starter₂|…)\s+(\w+)`: at the
current position try each starter in written order; after a matching
starter take at least one whitespace character and then the greedy word
run (whitespace characters are never word characters, so no backtracking
into `\s+` can succeed when the word run is empty). -/
def tryStarters (needB : Bool) (left right : List Char) :
    List (List Char) → Option (List Char)
  | [] => none
  | st :: more =>
      if (!needB || boundaryAt left.head? right.head?) && jsStartsWith st right then
        let after := right.drop st.length
        let isSp := match after.head? with | some c => jsIsSpace c | none => false
        let rest2 := after.dropWhile jsIsSpace
        let isW := match rest2.head? with | some c => isWordChar c | none => false
        if isSp && isW then some (rest2.takeWhile isWordChar)
        else tryStarters needB left right more
      else tryStarters needB left right more

/-- Leftmost-position scan for `tryStarters`. -/
def fnNameAux (starters : List (List Char)) (needB : Bool) :
    List Char → List Char → Option (List Char)
  | _, [] => none
  | left, c :: rest =>
      match tryStarters needB left (c :: rest) starters with
      | some n => some n
      | none => fnNameAux starters needB (c :: left) rest

/-- Captured group of `line.match(/(?:s₁|s₂|…)\s+(\w+)/)?.[1]`. -/
def findFnName (starters : List String) (needB : Bool) (s : List Char) :
    Option (List Char) :=
  fnNameAux (starters.map String.data) needB [] s

/-- `calculateCognitiveComplexity`: per line, brace-tracked nesting (clamped
at zero on close), plus `1 + nesting` when any incrementor token occurs in
the trimmed line, plus 1 for a `\bfunction\s+(\w+)` declaration whose name
occurs in the content (the recursion heuristic). -/
def cogLoop (keywords : List (List Char)) (content : List Char) :
    List (List Char) → ℤ → ℕ → ℕ
  | [], _, acc => acc
  | line :: rest, nesting, acc =>
      let trimmed := jsTrim line
      let n1 := if jsIncludes ['\x7b'] trimmed then nesting + 1 else nesting
      let n2 := if jsIncludes ['\x7d'] trimmed then max 0 (n1 - 1) else n1
      let kw := if keywords.any (fun k => jsIncludes k trimmed)
        then (1 + n2).toNat else 0
      let recur :=
        match findFnName ["function"] true trimmed with
        | some name => if jsIncludes name content then 1 else 0
        | none => 0
      cogLoop keywords content rest n2 (acc + kw + recur)

/-- `calculateCognitiveComplexity`. -/
def calculateCognitiveComplexity (content : String) (fileExtension : String) : ℕ :=
  cogLoop ((cogKeywords fileExtension).map String.data) content.data
    (jsSplit '\n' content.data) 0 0

/-- The js/ts function-counting pattern:
`/\b(function\s+\w+|const\s+\w+\s*=\s*\(.*\)\s*=>|class\s+\w+.*\{[\s\S]*?(\w+\s*\(.*\)\s*\{))/g`. -/
def fnPatJs : RE :=
  .cat .wordB (alts [
    cats [lit "function", plusS, plusW],
    cats [lit "const", plusS, plusW, starS, chr '=', starS, chr '(',
      starDot, chr ')', starS, lit "=>"],
    cats [lit "class", plusS, plusW, starDot, chr '\x7b', .star anyCl true,
      plusW, starS, chr '(', starDot, chr ')', starS, chr '\x7b']])

/-- `/\bdef\s+\w+\s*\(/g` (python). -/
def fnPatPy : RE := cats [.wordB, lit "def", plusS, plusW, starS, chr '(']

/-- `/(public|private|protected)?\s*(static)?\s*\w+\s+\w+\s*\(/g` (java). -/
def fnPatJava : RE :=
  cats [optG (alts [lit "public", lit "private", lit "protected"]), starS,
    optG (lit "static"), starS, plusW, plusS, plusW, starS, chr '(']

/-- `/\bfunc\s+(\(\w+\s+\*?\w+\)\s*)?\w+\s*\(/g` (go). -/
def fnPatGo : RE :=
  cats [.wordB, lit "func", plusS,
    optG (cats [chr '(', plusW, plusS, optG (chr '*'), plusW, chr ')', starS]),
    plusW, starS, chr '(']

/-- `/\bfn\s+\w+\s*\(/g` (rust). -/
def fnPatRs : RE := cats [.wordB, lit "fn", plusS, plusW, starS, chr '(']

/-- The per-language pattern table of `countFunctions`, falling back to js. -/
def fnPattern (ext : String) : RE :=
  if ext = "py" then fnPatPy
  else if ext = "java" then fnPatJava
  else if ext = "go" then fnPatGo
  else if ext = "rs" then fnPatRs
  else fnPatJs

/-- `countFunctions`. -/
def countFunctions (content : String) (fileExtension : String) : ℕ :=
  countGlobal (fnPattern fileExtension) content.data

/-- Per-file complexity metrics (the `ComplexityMetrics` interface). -/
structure ComplexityMetrics where
  cyclomatic : ℕ
  cognitive : ℕ
  functions : ℕ
  avgComplexityPerFunction : ℚ
deriving DecidableEq

/-- `filePath.split('.').pop() || 'js'`. -/
def extOf (filePath : String) : String :=
  match (jsSplit '.' filePath.data).getLast? with
  | some e => if e.isEmpty then "js" else String.mk e
  | none => "js"

/-- `analyzeComplexity`. -/
def analyzeComplexity (content : String) (filePath : String) : ComplexityMetrics :=
  let ext := extOf filePath
  let cyclomatic := calculateCyclomaticComplexity content ext
  let cognitive := calculateCognitiveComplexity content ext
  let functions := countFunctions content ext
  { cyclomatic, cognitive, functions,
    avgComplexityPerFunction :=
      if functions > 0 then (cyclomatic : ℚ) / functions else 0 }

/-! ## analyzers/codeSmells.ts -/

/-- The `CodeSmell` record (`line` is absent for file-level smells). -/
structure CodeSmell where
  type : String
  severity : String
  line : Option ℕ
  message : String
  effort : ℕ
deriving DecidableEq

/-- Does the line match one of `/function\s+(\w+)/`, `/def\s+(\w+)/`,
`/fn\s+(\w+)/` (the function-start detection of `detectLongMethods`)? -/
def hasFnDecl (line : List Char) : Bool :=
  (findFnName ["function"] false line).isSome ||
  (findFnName ["def"] false line).isSome ||
  (findFnName ["fn"] false line).isSome

/-- `line.match(/(?:function|def|fn)\s+(\w+)/)?.[1] || 'anonymous'`. -/
def fnNameOf (line : List Char) : List Char :=
  (findFnName ["function", "def", "fn"] false line).getD "anonymous".data

/-- The finding `detectLongMethods` pushes for a function of `len` lines
starting at zero-based line `start`. -/
def mkLongSmell (name : List Char) (start len : ℕ) : CodeSmell :=
  { type := "long_method",
    severity := if len > 100 then "critical" else "major",
    line := some (start + 1),
    message := "Function '" ++ String.mk name ++ "' is " ++ toString len ++
      " lines long (recommended: < 50 lines)",
    effort := ceilDiv len 10 * 15 }

/-- The loop of `detectLongMethods`: brace-balance state machine over the
lines (`braceCount` moves by at most one per line, one per brace kind). -/
def lmLoop (lines : List (List Char)) (i : ℕ) (inF : Bool) (start : ℕ)
    (brace : ℤ) (name : List Char) : List CodeSmell :=
  match lines with
  | [] => []
  | line :: rest =>
      let detected := !inF && hasFnDecl line
      let inF1 := inF || detected
      let start1 := if detected then i else start
      let name1 := if detected then fnNameOf line else name
      let brace1 : ℤ := if detected then 0 else brace
      if inF1 then
        let brace2 := (brace1 + (if jsIncludes ['\x7b'] line then 1 else 0))
          - (if jsIncludes ['\x7d'] line then 1 else 0)
        if brace2 = 0 ∧ i > start1 then
          let len := i - start1
          (if len > 50 then [mkLongSmell name1 start1 len] else []) ++
            lmLoop rest (i + 1) false start1 brace2 name1
        else lmLoop rest (i + 1) true start1 brace2 name1
      else lmLoop rest (i + 1) false start1 brace1 name1

/-- `detectLongMethods` (its `ext` local is computed but never used by the
source, so the path does not influence the result). -/
def detectLongMethods (content : String) (filePath : String) : List CodeSmell :=
  lmLoop (linesOf content) 0 false 0 0 []

/-- A function span as the `detectLongMethods` state machine delimits it:
start line (zero-based), name, and length in lines from the declaration to
the line where the brace balance returns to zero. -/
structure FnSpan where
  start : ℕ
  name : List Char
  len : ℕ
deriving DecidableEq

/-- The same state machine as `lmLoop`, recording every completed function
span whatever its length. -/
def lmSpans (lines : List (List Char)) (i : ℕ) (inF : Bool) (start : ℕ)
    (brace : ℤ) (name : List Char) : List FnSpan :=
  match lines with
  | [] => []
  | line :: rest =>
      let detected := !inF && hasFnDecl line
      let inF1 := inF || detected
      let start1 := if detected then i else start
      let name1 := if detected then fnNameOf line else name
      let brace1 : ℤ := if detected then 0 else brace
      if inF1 then
        let brace2 := (brace1 + (if jsIncludes ['\x7b'] line then 1 else 0))
          - (if jsIncludes ['\x7d'] line then 1 else 0)
        if brace2 = 0 ∧ i > start1 then
          { start := start1, name := name1, len := i - start1 } ::
            lmSpans rest (i + 1) false start1 brace2 name1
        else lmSpans rest (i + 1) true start1 brace2 name1
      else lmSpans rest (i + 1) false start1 brace1 name1

/-- `detectGodClasses`. -/
def detectGodClasses (content : String) (filePath : String) : List CodeSmell :=
  let lines := (linesOf content).filter (fun l => (jsTrim l).length > 0)
  let fileName :=
    match (jsSplit '/' filePath.data).getLast? with
    | some e => if e.isEmpty then "unknown" else String.mk e
    | none => "unknown"
  if lines.length > 500 then
    [{ type := "god_class",
       severity := if lines.length > 1000 then "blocker" else "critical",
       line := none,
       message := "File '" ++ fileName ++ "' has " ++ toString lines.length ++
         " lines (recommended: < 500 lines). Consider splitting into smaller modules.",
       effort := ceilDiv lines.length 100 * 60 }]
  else []

/-- The magic-number pattern
`/(?<!const|let|var|=\s*)[^a-zA-Z0-9_]([2-9]|[1-9]\d+)(?![a-zA-Z0-9_])/g`:
the negative lookbehind's alternatives are stored reversed (`tsnoc`,
`tel`, `rav`, `\s*=`) because the matcher runs them on the reversed left
context. -/
def magicRe : RE :=
  cats [
    .lookb (alts [lit "tsnoc", lit "tel", lit "rav", cats [starS, chr '=']]) true,
    .pred (fun c => !isWordChar c),
    alts [.pred (fun c => '2' ≤ c && c ≤ '9'),
      cats [.pred (fun c => '1' ≤ c && c ≤ '9'), digitCl, .star digitCl false]],
    .look wCl true]

/-- `detectMagicNumbers`: one minor finding per line with a magic-number
match outside comments, capped at the first ten. -/
def detectMagicNumbers (content : String) : List CodeSmell :=
  let lines := linesOf content
  (((List.range lines.length).zip lines).filterMap (fun p =>
    if reTest magicRe p.2 && !jsIncludes "//".data p.2 &&
        !jsStartsWith "*".data (jsTrim p.2) then
      some { type := "magic_number", severity := "minor",
             line := some (p.1 + 1),
             message := "Magic number detected. Consider using named constants for better readability.",
             effort := 5 }
    else none)).take 10

/-- The loop of `detectDeepNesting`: running brace balance, the peak and the
line where the peak was first reached. -/
def dnLoop : List (List Char) → ℕ → ℤ → ℤ → ℕ → ℤ × ℕ
  | [], _, _, maxN, maxLine => (maxN, maxLine)
  | line :: rest, i, nesting, maxN, maxLine =>
      let nesting2 := nesting + (countChar '\x7b' line : ℤ) - (countChar '\x7d' line : ℤ)
      if nesting2 > maxN then dnLoop rest (i + 1) nesting2 nesting2 (i + 1)
      else dnLoop rest (i + 1) nesting2 maxN maxLine

/-- `detectDeepNesting`. -/
def detectDeepNesting (content : String) : List CodeSmell :=
  let r := dnLoop (linesOf content) 0 0 0 0
  if r.1 > 4 then
    [{ type := "deep_nesting",
       severity := if r.1 > 6 then "major" else "minor",
       line := some r.2,
       message := "Deep nesting detected (" ++ toString r.1 ++
         " levels). Consider extracting methods or using early returns.",
       effort := r.1.toNat * 10 }]
  else []

/-- `detectCommentedCode`. -/
def detectCommentedCode (content : String) : List CodeSmell :=
  let count := ((linesOf content).filter (fun l =>
    let t := jsTrim l
    (jsStartsWith "//".data t || jsStartsWith "#".data t) &&
      (jsIncludes "=".data t || jsIncludes "(".data t || jsIncludes "\x7b".data t))).length
  if count > 10 then
    [{ type := "commented_code", severity := "minor", line := none,
       message := toString count ++
         " lines of commented code detected. Remove dead code or use version control.",
       effort := count * 2 }]
  else []

/-- The trimmed, blank-filtered, newline-joined window of 6 consecutive raw
lines starting at `i` (`lines.slice(i, i+6).map(trim).filter(nonempty).join('\n')`). -/
def blockAt (lines : List (List Char)) (i : ℕ) : List Char :=
  List.intercalate ['\n'] ((((lines.drop i).take 6).map jsTrim).filter
    (fun l => l.length > 0))

/-- Insertion-ordered association map of `detectDuplication` (`Map<string,
number[]>`): append the occurrence index to an existing key's list, or add
a fresh entry at the end. -/
def addOcc : List (List Char × List ℕ) → List Char → ℕ → List (List Char × List ℕ)
  | [], key, i => [(key, [i])]
  | (k, os) :: rest, key, i =>
      if k = key then (k, os ++ [i]) :: rest else (k, os) :: addOcc rest key i

/-- The block map after scanning all windows (only windows whose joined text
is over 50 characters are recorded). -/
def dupMap (lines : List (List Char)) : List (List Char × List ℕ) :=
  (List.range (lines.length - 5)).foldl (fun m i =>
    let b := blockAt lines i
    if b.length > 50 then addOcc m b i else m) []

/-- `duplicateBlocks`: the number of distinct recorded windows that occur
more than once. -/
def duplicateBlocks (lines : List (List Char)) : ℕ :=
  ((dupMap lines).filter (fun e => e.2.length > 1)).length

/-- `detectDuplication`. -/
def detectDuplication (content : String) : List CodeSmell :=
  let db := duplicateBlocks (linesOf content)
  if db > 0 then
    [{ type := "code_duplication",
       severity := if db > 5 then "major" else "minor",
       line := none,
       message := toString db ++
         " duplicate code blocks detected. Consider extracting common functionality.",
       effort := db * 30 }]
  else []

/-- `detectMissingErrorHandling`. -/
def detectMissingErrorHandling (content : String) : List CodeSmell :=
  let lines := linesOf content
  let hasAsyncCalls := lines.any (fun l =>
    jsIncludes "async".data l || jsIncludes "await".data l ||
    jsIncludes "Promise".data l || jsIncludes "fetch".data l ||
    jsIncludes "axios".data l)
  let hasTryCatch := lines.any (fun l =>
    jsIncludes "try".data l || jsIncludes "catch".data l)
  let hasErrorHandling := lines.any (fun l =>
    jsIncludes ".catch(".data l || jsIncludes ".then(".data l)
  if hasAsyncCalls && !hasTryCatch && !hasErrorHandling then
    [{ type := "missing_error_handling", severity := "major", line := none,
       message := "Async operations detected without proper error handling. Add try-catch or .catch() handlers.",
       effort := 20 }]
  else []

/-- `analyzeCodeSmells`: concatenation of the seven rules in source order. -/
def analyzeCodeSmells (content : String) (filePath : String) : List CodeSmell :=
  detectLongMethods content filePath ++ detectGodClasses content filePath ++
  detectMagicNumbers content ++ detectDeepNesting content ++
  detectCommentedCode content ++ detectDuplication content ++
  detectMissingErrorHandling content

/-! ## analyzers/security.ts -/

/-- The `SecurityIssue` record (`cwe` is optional in the interface). -/
structure SecurityIssue where
  type : String
  severity : String
  line : Option ℕ
  message : String
  cwe : Option String
  effort : ℕ
deriving DecidableEq

/-- `['"]` -/
def quoteCl : RE := .pred (fun c => c == '\'' || c == '"')

/-- `[^'"]` -/
def nonQuoteCl : RE := .pred (fun c => !(c == '\'' || c == '"'))

/-- `[A-Za-z0-9]` -/
def alnumCl : RE :=
  .pred (fun c => ('a' ≤ c && c ≤ 'z') || ('A' ≤ c && c ≤ 'Z') || ('0' ≤ c && c ≤ '9'))

/-- The common tail `\s*=\s*['"][^'"]+['"]` of the secret patterns. -/
def secretTail : RE :=
  cats [starS, chr '=', starS, quoteCl, nonQuoteCl, .star nonQuoteCl false, quoteCl]

/-- `/(password|passwd|pwd)\s*=\s*['"][^'"]+['"]/i` -/
def secretPat1 : RE :=
  .cat (alts [litCi "password", litCi "passwd", litCi "pwd"]) secretTail

/-- `/(api[_-]?key|apikey)\s*=\s*['"][^'"]+['"]/i` -/
def secretPat2 : RE :=
  .cat (alts [cats [litCi "api", optG (.pred (fun c => c == '_' || c == '-')),
    litCi "key"], litCi "apikey"]) secretTail

/-- `/(secret|token)\s*=\s*['"][^'"]+['"]/i` -/
def secretPat3 : RE :=
  .cat (alts [litCi "secret", litCi "token"]) secretTail

/-- `/(['"][A-Za-z0-9]{32,}['"])/g` — the only secret pattern with the
global flag, whose `lastIndex` therefore persists between the per-line
`test` calls of one `detectHardcodedSecrets` run. -/
def secretPat4 : RE :=
  cats [quoteCl, repAtLeast alnumCl 32, quoteCl]

/-- Does the line keep a finding: no environment-variable and no config
accessor on it. -/
def noAccessor (line : List Char) : Bool :=
  !jsIncludes "process.env".data line && !jsIncludes "config.".data line

/-- The finding `detectHardcodedSecrets` pushes at one-based line `ln` with
the matched pattern's message. -/
def mkSecretIssue (ln : ℕ) (msg : String) : SecurityIssue :=
  { type := "hardcoded_secret", severity := "blocker", line := some ln,
    message := msg ++ ". Use environment variables or secure vaults.",
    cwe := some "CWE-798", effort := 15 }

/-- The per-line loop of `detectHardcodedSecrets`.  The three assignment
patterns are stateless; the fourth pattern's `lastIndex` is threaded: it is
consulted and updated only when no earlier pattern both matched and passed
the accessor check (the loop `break`s there), it moves to the match's end
on a hit — even one suppressed by the accessor check — and resets to 0 on a
miss. -/
def secretsLoop : List (List Char) → ℕ → ℕ → List SecurityIssue
  | [], _, _ => []
  | line :: rest, i, lastIndex =>
      let ok := noAccessor line
      if reTest secretPat1 line && ok then
        mkSecretIssue (i + 1) "Hardcoded password detected" :: secretsLoop rest (i + 1) lastIndex
      else if reTest secretPat2 line && ok then
        mkSecretIssue (i + 1) "Hardcoded API key detected" :: secretsLoop rest (i + 1) lastIndex
      else if reTest secretPat3 line && ok then
        mkSecretIssue (i + 1) "Hardcoded secret/token detected" :: secretsLoop rest (i + 1) lastIndex
      else
        match execFrom secretPat4 line lastIndex with
        | some e =>
            if ok then
              mkSecretIssue (i + 1) "Potential hardcoded credential detected" ::
                secretsLoop rest (i + 1) e
            else secretsLoop rest (i + 1) e
        | none => secretsLoop rest (i + 1) 0

/-- `detectHardcodedSecrets`. -/
def detectHardcodedSecrets (content : String) : List SecurityIssue :=
  secretsLoop (linesOf content) 0 0

/-- `detectSQLInjection`. -/
def detectSQLInjection (content : String) : List SecurityIssue :=
  ((List.range (linesOf content).length).zip (linesOf content)).filterMap (fun p =>
    if (jsIncludes "SELECT".data p.2 || jsIncludes "INSERT".data p.2 ||
        jsIncludes "UPDATE".data p.2 || jsIncludes "DELETE".data p.2) &&
       (jsIncludes "+".data p.2 || jsIncludes "$\x7b".data p.2 ||
        jsIncludes "`".data p.2) then
      some { type := "sql_injection", severity := "blocker", line := some (p.1 + 1),
             message := "Potential SQL injection vulnerability. Use parameterized queries or ORM.",
             cwe := some "CWE-89", effort := 30 }
    else none)

/-- `detectXSS`. -/
def detectXSS (content : String) : List SecurityIssue :=
  ((List.range (linesOf content).length).zip (linesOf content)).filterMap (fun p =>
    if (jsIncludes "innerHTML".data p.2 || jsIncludes "outerHTML".data p.2 ||
        jsIncludes "document.write".data p.2) &&
       (jsIncludes "+".data p.2 || jsIncludes "$\x7b".data p.2 ||
        jsIncludes "`".data p.2) then
      some { type := "xss_vulnerability", severity := "critical", line := some (p.1 + 1),
             message := "Potential XSS vulnerability. Sanitize user input before rendering.",
             cwe := some "CWE-79", effort := 25 }
    else none)

/-- `detectInsecureRandom`. -/
def detectInsecureRandom (content : String) : List SecurityIssue :=
  ((List.range (linesOf content).length).zip (linesOf content)).filterMap (fun p =>
    if jsIncludes "Math.random()".data p.2 &&
       (jsIncludes "token".data p.2 || jsIncludes "key".data p.2 ||
        jsIncludes "password".data p.2 || jsIncludes "secret".data p.2) then
      some { type := "insecure_random", severity := "critical", line := some (p.1 + 1),
             message := "Math.random() is not cryptographically secure. Use crypto.randomBytes() instead.",
             cwe := some "CWE-338", effort := 10 }
    else none)

/-- `/\beval\s*\(/` -/
def evalPat : RE := cats [.wordB, lit "eval", starS, chr '(']

/-- `detectEvalUsage`. -/
def detectEvalUsage (content : String) : List SecurityIssue :=
  ((List.range (linesOf content).length).zip (linesOf content)).filterMap (fun p =>
    if reTest evalPat p.2 then
      some { type := "eval_usage", severity := "critical", line := some (p.1 + 1),
             message := "eval() usage detected. This can lead to code injection vulnerabilities.",
             cwe := some "CWE-95", effort := 20 }
    else none)

/-- `/require\(['"]child_process['"]\)/` -/
def requireChildProcess : RE :=
  cats [lit "require(", quoteCl, lit "child_process", quoteCl, chr ')']

/-- `/require\(['"]fs['"]\)/` -/
def requireFs : RE :=
  cats [lit "require(", quoteCl, lit "fs", quoteCl, chr ')']

/-- `/exec\(|spawn\(/` -/
def execSpawn : RE := .alt (lit "exec(") (lit "spawn(")

/-- `detectInsecureDependencies`: the first matching of the three patterns
per line wins (the inner loop `break`s). -/
def detectInsecureDependencies (content : String) : List SecurityIssue :=
  ((List.range (linesOf content).length).zip (linesOf content)).filterMap (fun p =>
    let msg :=
      if reTest requireChildProcess p.2 then
        some "child_process usage can be dangerous if not properly sanitized"
      else if reTest requireFs p.2 then
        some "File system access should be carefully controlled"
      else if reTest execSpawn p.2 then
        some "Command execution can lead to command injection if not sanitized"
      else none
    msg.map (fun m =>
      { type := "insecure_dependency", severity := "major", line := some (p.1 + 1),
        message := m, cwe := some "CWE-78", effort := 20 }))

/-- `analyzeSecurityIssues`: concatenation of the six rules in source order. -/
def analyzeSecurityIssues (content : String) : List SecurityIssue :=
  detectHardcodedSecrets content ++ detectSQLInjection content ++
  detectXSS content ++ detectInsecureRandom content ++
  detectEvalUsage content ++ detectInsecureDependencies content

/-! ## analyzers/aiCodeDetector.ts -/

/-- The `metadata` block of `AICodeAnalysis`. -/
structure AIMetadata where
  totalLines : ℕ
  codeLines : ℕ
  commentLines : ℕ
  blankLines : ℕ
deriving DecidableEq

/-- The line-classification loop at the top of `analyzeAICode`: a blank
trimmed line is a blank line, a trimmed line starting with `//`, `#`, `/*`
or `*` a comment line, anything else a code line; `totalLines` is the raw
split length. -/
def aiMetadata (content : String) : AIMetadata :=
  let lines := linesOf content
  { totalLines := lines.length,
    blankLines := (lines.filter (fun l => (jsTrim l).isEmpty)).length,
    commentLines := (lines.filter (fun l =>
      let t := jsTrim l
      !t.isEmpty && (jsStartsWith "//".data t || jsStartsWith "#".data t ||
        jsStartsWith "/*".data t || jsStartsWith "*".data t))).length,
    codeLines := (lines.filter (fun l =>
      let t := jsTrim l
      !t.isEmpty && !(jsStartsWith "//".data t || jsStartsWith "#".data t ||
        jsStartsWith "/*".data t || jsStartsWith "*".data t))).length }

/-- Outcome of the mutually exclusive comment-ratio branches of
`analyzeAICode` (ratio over 0.25 scores 25, ratio under 0.05 with more
than 30 code lines scores 15, anything else nothing). -/
inductive CommentSignal where
  | high : CommentSignal
  | low : CommentSignal
  | balanced : CommentSignal
deriving DecidableEq

/-- Outcome of the mutually exclusive generic-variable-name branches
(count over 5 scores 28 for the AI side; count zero with more than 20 code
lines scores 18 for the human side; anything else nothing). -/
inductive GenericVarSignal where
  | many : GenericVarSignal
  | noneWithCode : GenericVarSignal
  | few : GenericVarSignal
deriving DecidableEq

/-- The branch outcomes of the additive scoring section of `analyzeAICode`
(lines 198–432 of the source): every input file induces exactly one such
record, and the two scores are functions of it alone.  `signatureHits` is
the number of the six `aiToolSignatures` patterns that test true (each
adds 60). -/
structure AISignals where
  lowComplexity : Bool
  highKeywordDensity : Bool
  uniformFunctions : Bool
  commentSignal : CommentSignal
  genericComments : Bool
  genericVars : GenericVarSignal
  perfectIndentation : Bool
  boilerplate : Bool
  repetitiveStructures : Bool
  signatureHits : Fin 7
  contextualComments : Bool
  domainNaming : Bool
  refactoringEvidence : Bool
  debuggingArtifacts : Bool
deriving DecidableEq

/-- `aiScore` as `analyzeAICode` accumulates it. -/
def aiScoreOf (s : AISignals) : ℕ :=
  (if s.lowComplexity then 30 else 0) +
  (if s.highKeywordDensity then 25 else 0) +
  (if s.uniformFunctions then 20 else 0) +
  (match s.commentSignal with
   | .high => 25 | .low => 15 | .balanced => 0) +
  (if s.genericComments then 30 else 0) +
  (match s.genericVars with | .many => 28 | _ => 0) +
  (if s.perfectIndentation then 12 else 0) +
  (if s.boilerplate then 15 else 0) +
  (if s.repetitiveStructures then 20 else 0) +
  60 * (s.signatureHits : ℕ)

/-- `humanScore` as `analyzeAICode` accumulates it. -/
def humanScoreOf (s : AISignals) : ℕ :=
  (match s.genericVars with | .noneWithCode => 18 | _ => 0) +
  (if s.contextualComments then 20 else 0) +
  (if s.domainNaming then 15 else 0) +
  (if s.refactoringEvidence then 25 else 0) +
  (if s.debuggingArtifacts then 12 else 0)

/-- The final normalization of `analyzeAICode`:
`totalScore > 0 ? Math.min(100, (aiScore / (aiScore + humanScore * 0.7)) * 100) : 50`.
The double constant `0.7` is modelled by `7/10`; for the integer scores the
branch structure can produce, every comparison and rounding below agrees
with the double computation (whose result is within `2⁻⁴⁰` of the
rational one while the nearest rounding boundary is at distance at least
`1/(2·(10·aiScore+7·humanScore))`). -/
def aiLikelihoodRaw (aiScore humanScore : ℕ) : ℚ :=
  if 0 < aiScore + humanScore then
    min 100 ((aiScore : ℚ) / ((aiScore : ℚ) + (humanScore : ℚ) * (7/10)) * 100)
  else 50

/-- The `(aiLikelihood, humanLikelihood)` pair as `analyzeAICode` returns
it: `humanLikelihood = 100 − aiLikelihood` before rounding, and both are
passed through `Math.round` independently. -/
def likelihoodPair (aiScore humanScore : ℕ) : ℤ × ℤ :=
  let ai := aiLikelihoodRaw aiScore humanScore
  (jsRound ai, jsRound (100 - ai))

/-- One detected `AICodePattern`. -/
structure AICodePattern where
  type : String
  description : String
  severity : String
  confidence : ℕ
  line : Option ℕ
  snippet : Option String
deriving DecidableEq

/-- The `staticMetrics` block of `AICodeAnalysis`. -/
structure StaticCodeMetrics where
  sumCyclomatic : ℕ
  avgCountLineCode : ℚ
  countLineCodeDecl : ℕ
  countDeclFunction : ℕ
  maxNesting : ℤ
  countLineBlank : ℕ
  keywordRatio : ℚ
  operatorRatio : ℚ
deriving DecidableEq

/-- The `indicators` block of `AICodeAnalysis` (each `Math.round`ed). -/
structure AIIndicators where
  styleConsistency : ℤ
  commentQuality : ℤ
  namingPatterns : ℤ
  codeStructure : ℤ
  errorHandling : ℤ
deriving DecidableEq

/-- A per-file authorship analysis (the `AICodeAnalysis` interface). -/
structure AICodeAnalysis where
  file : String
  aiLikelihood : ℚ
  humanLikelihood : ℚ
  patterns : List AICodePattern
  staticMetrics : StaticCodeMetrics
  indicators : AIIndicators
  metadata : AIMetadata
deriving DecidableEq

/-- The repository-level summary (the `AICodeSummary` interface). -/
structure AICodeSummary where
  totalFiles : ℕ
  aiGeneratedFiles : ℕ
  humanWrittenFiles : ℕ
  mixedFiles : ℕ
  aiCodePercentage : ℤ
  confidenceScore : ℤ
  topAIPatterns : List (String × ℕ)
  securityRisks : ℕ
  maintenanceRisks : ℕ
  qualityRisks : ℕ
  recommendations : List String
deriving DecidableEq

/-- The accumulator of `generateAISummary`'s `forEach` loop. -/
structure GASState where
  aiGeneratedFiles : ℕ
  humanWrittenFiles : ℕ
  mixedFiles : ℕ
  totalAIScore : ℚ
  patternCounts : List (String × ℕ)
  totalConfidence : ℕ
deriving DecidableEq

/-- `patternCounts.set(type, (patternCounts.get(type) || 0) + 1)` on the
insertion-ordered map. -/
def bumpCount : List (String × ℕ) → String → List (String × ℕ)
  | [], key => [(key, 1)]
  | (k, n) :: rest, key =>
      if k = key then (k, n + 1) :: rest else (k, n) :: bumpCount rest key

/-- One `forEach` step of `generateAISummary`: add the file's likelihood to
the running total, bucket the file by the 70/30 thresholds, and fold its
patterns into the counts. -/
def gasStep (st : GASState) (a : AICodeAnalysis) : GASState :=
  let st := { st with totalAIScore := st.totalAIScore + a.aiLikelihood }
  let st :=
    if a.aiLikelihood > 70 then
      { st with aiGeneratedFiles := st.aiGeneratedFiles + 1 }
    else if a.aiLikelihood < 30 then
      { st with humanWrittenFiles := st.humanWrittenFiles + 1 }
    else { st with mixedFiles := st.mixedFiles + 1 }
  a.patterns.foldl (fun st p =>
    { st with patternCounts := bumpCount st.patternCounts p.type,
              totalConfidence := st.totalConfidence + p.confidence }) st

/-- `generateAISummary`. -/
def generateAISummary (analyses : List AICodeAnalysis) : AICodeSummary :=
  let totalFiles := analyses.length
  let st := analyses.foldl gasStep
    { aiGeneratedFiles := 0, humanWrittenFiles := 0, mixedFiles := 0,
      totalAIScore := 0, patternCounts := [], totalConfidence := 0 }
  let aiCodePercentage : ℚ :=
    if totalFiles > 0 then st.totalAIScore / totalFiles else 0
  let confidenceScore : ℚ :=
    (st.totalConfidence : ℚ) /
      (max 1 ((analyses.map (fun a => a.patterns.length)).sum) : ℕ)
  let topAIPatterns :=
    ((st.patternCounts.mergeSort (fun a b => decide (b.2 ≤ a.2))).take 5)
  let securityRisks := (analyses.filter (fun a => a.patterns.any (fun p =>
    p.type == "missing_edge_cases" || p.type == "low_complexity_pattern"))).length
  let maintenanceRisks := (analyses.filter (fun a => a.patterns.any (fun p =>
    p.type == "generic_naming" || p.type == "repetitive_structures"))).length
  let qualityRisks := (analyses.filter (fun a => a.patterns.any (fun p =>
    p.type == "boilerplate_code" || p.type == "excessive_comments"))).length
  let recommendations :=
    (if aiCodePercentage > 50 then
      ["ðŸ” High AI-generated code detected (>50%). Conduct thorough code review focusing on edge cases and security."]
     else []) ++
    (if (securityRisks : ℚ) > (totalFiles : ℚ) * (3/10) then
      ["ðŸ›¡ï¸ Implement comprehensive error handling and input validation in AI-generated sections."]
     else []) ++
    (if (maintenanceRisks : ℚ) > (totalFiles : ℚ) * (3/10) then
      ["â™»ï¸ Refactor generic variable names and repetitive structures for better maintainability."]
     else []) ++
    (if (qualityRisks : ℚ) > (totalFiles : ℚ) * (3/10) then
      ["ðŸ“ Review and improve comment quality; remove generic boilerplate comments."]
     else []) ++
    (if st.aiGeneratedFiles > 0 then
      ["âœ… Establish code review guidelines specifically for AI-generated code.",
       "ðŸ§ª Add comprehensive test coverage for AI-generated functions."]
     else [])
  { totalFiles,
    aiGeneratedFiles := st.aiGeneratedFiles,
    humanWrittenFiles := st.humanWrittenFiles,
    mixedFiles := st.mixedFiles,
    aiCodePercentage := jsRound aiCodePercentage,
    confidenceScore := jsRound confidenceScore,
    topAIPatterns, securityRisks, maintenanceRisks, qualityRisks,
    recommendations :=
      if recommendations.isEmpty then
        ["âœ¨ Code quality looks good! Continue maintaining high standards."]
      else recommendations }

/-! ## The scanner (scanFile / aggregateResults) -/

/-- The return record of `scanFile`. -/
structure ScanFileResult where
  complexity : ComplexityMetrics
  codeSmells : List CodeSmell
  securityIssues : List SecurityIssue
  lines : ℕ
  commentLines : ℕ
deriving DecidableEq

/-- `scanFile` (the `async` wrapper performs no IO: it splits, counts the
comment-prefixed lines and calls the three analyzers). -/
def scanFile (content : String) (filePath : String) : ScanFileResult :=
  let lines := linesOf content
  { complexity := analyzeComplexity content filePath,
    codeSmells := analyzeCodeSmells content filePath,
    securityIssues := analyzeSecurityIssues content,
    lines := lines.length,
    commentLines := (lines.filter (fun l =>
      let t := jsTrim l
      jsStartsWith "//".data t || jsStartsWith "#".data t ||
        jsStartsWith "*".data t)).length }

/-- `calculateFileScore`: sequential penalties from 100, clamped at 0. -/
def calculateFileScore (complexity : ComplexityMetrics) (issues : ℕ)
    (lines : ℕ) : ℚ :=
  let score : ℚ := 100
  let score := score - min ((complexity.cyclomatic : ℚ) / 10) 30
  let score := score - min ((complexity.cognitive : ℚ) / 10) 20
  let score := score - min ((issues : ℚ) * 2) 30
  let score := if lines > 500 then score - 10 else score
  let score := if lines > 1000 then score - 10 else score
  max 0 score

/-- `generateIssueId` hashes `` `${type}:${file}:${line || 0}` `` with
sha-256 and keeps the first 8 hex digits; the hash is a fixed
deterministic function of this preimage, which is what the embedding
keeps. -/
def generateIssueId (type file : String) (line : Option ℕ) : String :=
  type ++ ":" ++ file ++ ":" ++ toString (line.getD 0)

/-- `mapSeverityToBusinessImpact`. -/
def mapSeverityToBusinessImpact (severity : String) : String :=
  if severity = "blocker" then
    "CRITICAL - Immediate production risk, potential data breach or system failure"
  else if severity = "critical" then
    "HIGH - Significant impact on reliability, security, or performance"
  else if severity = "major" then
    "MEDIUM - Affects maintainability and development velocity"
  else if severity = "minor" then
    "LOW - Minor quality improvement, technical excellence"
  else if severity = "info" then
    "MINIMAL - Informational, best practice suggestion"
  else "UNKNOWN"

/-- One normalized issue of `ScanResult.issues` (`cwe` is present only on
security findings). -/
structure Issue where
  id : String
  type : String
  severity : String
  category : String
  file : String
  line : Option ℕ
  message : String
  effort : ℕ
  businessImpact : String
  cwe : Option String
deriving DecidableEq

/-- The issue built from a code smell (category `maintainability`). -/
def smellIssue (file : String) (s : CodeSmell) : Issue :=
  { id := generateIssueId s.type file s.line,
    type := s.type, severity := s.severity, category := "maintainability",
    file, line := s.line, message := s.message, effort := s.effort,
    businessImpact := mapSeverityToBusinessImpact s.severity, cwe := none }

/-- The issue built from a security finding (category `security`). -/
def secIssue (file : String) (s : SecurityIssue) : Issue :=
  { id := generateIssueId s.type file s.line,
    type := s.type, severity := s.severity, category := "security",
    file, line := s.line, message := s.message, effort := s.effort,
    businessImpact := mapSeverityToBusinessImpact s.severity, cwe := s.cwe }

/-! ## calculators/businessImpact.js, modelled from the spec

The scanner imports `calculateDebtRatio`, `calculateSQALERating`,
`calculateMaintainabilityIndex` and `calculateBusinessImpact` from
`src/calculators/businessImpact.js`, a file of the repository that is not
part of the staged sources; the definitions below are modelled from the
spec's §4.6.  All are pure functions of their arguments. -/

/-- Modelled from the spec: `calculateDebtRatio` —
"Debt ratio = 100 × totalDebtMinutes / (totalLines × assumedMinutesPerLine)
(assumed cost per line is a configurable constant, default 30)", with the
zero-lines guard of §7. -/
def calculateDebtRatio (totalDebtMinutes totalLines : ℕ) : ℚ :=
  if totalLines > 0 then
    100 * (totalDebtMinutes : ℚ) / ((totalLines : ℚ) * 30)
  else 0

/-- Modelled from the spec: `calculateSQALERating` — "Letter rating
thresholds: ≤5%→A, ≤10%→B, ≤20%→C, ≤50%→D, else E". -/
def calculateSQALERating (debtRatio : ℚ) : String :=
  if debtRatio ≤ 5 then "A"
  else if debtRatio ≤ 10 then "B"
  else if debtRatio ≤ 20 then "C"
  else if debtRatio ≤ 50 then "D"
  else "E"

/-- Modelled from the spec: the natural-logarithm term of the
maintainability index, as a computable rational stand-in
(`log₂ n · ln 2` with a rational constant for `ln 2`); it is a fixed
monotone function of the line count, which is all the claims below use. -/
def lnApprox (n : ℕ) : ℚ :=
  (Nat.log 2 n : ℚ) * (693147 / 1000000)

/-- Modelled from the spec: `calculateMaintainabilityIndex` —
"100 − min(complexity/10,30) − min(ln(lines)×2,30) + commentRatio×10,
clamped to [0,100]". -/
def calculateMaintainabilityIndex (totalLines totalCyclomatic : ℕ)
    (commentRatio : ℚ) : ℚ :=
  min 100 (max 0
    (100 - min ((totalCyclomatic : ℚ) / 10) 30
         - min (lnApprox totalLines * 2) 30
         + commentRatio * 10))

/-- The `BusinessImpact` block of `ScanResult` (§3: financial cost,
time-to-fix string, risk score, qualitative labels, recommendations). -/
structure BusinessImpact where
  financialCost : ℚ
  timeToFix : String
  riskScore : ℚ
  productivityImpact : String
  customerImpact : String
  recommendations : List String
deriving DecidableEq

/-- Modelled from the spec: the severity→weight table of the risk score,
"severity-weighted sum of findings (blocker=20…info=1)". -/
def severityWeight (severity : String) : ℚ :=
  if severity = "blocker" then 20
  else if severity = "critical" then 10
  else if severity = "major" then 5
  else if severity = "minor" then 2
  else if severity = "info" then 1
  else 0

/-- Modelled from the spec: `calculateBusinessImpact` — financial cost
`(totalDebtMinutes/60) × hourlyRate` (hourly rate a configurable constant,
taken as 75), risk score the severity-weighted sum capped at 100, the
productivity and customer-impact labels threshold classifiers over
complexity/smell counts and security/reliability issue counts, and a
recommendation list gated by the same quantities. -/
def calculateBusinessImpact (totalDebtMinutes totalLines : ℕ)
    (issues : List Issue) (totalCyclomatic codeSmells : ℕ)
    (testCoverage : ℚ) : BusinessImpact :=
  let severe := (issues.filter (fun i =>
    i.severity == "blocker" || i.severity == "critical")).length
  { financialCost := (totalDebtMinutes : ℚ) / 60 * 75,
    timeToFix := toString (totalDebtMinutes / 60) ++ " hours",
    riskScore := min 100 ((issues.map (fun i => severityWeight i.severity)).sum),
    productivityImpact :=
      if totalCyclomatic > 500 ∨ codeSmells * 10 > totalLines then "HIGH"
      else if codeSmells > 0 then "MODERATE" else "LOW",
    customerImpact :=
      if severe > 10 then "HIGH" else if severe > 0 then "MODERATE" else "LOW",
    recommendations :=
      (if severe > 0 then ["Address blocker and critical findings first."] else []) ++
      (if testCoverage < 50 then ["Increase automated test coverage."] else []) }

/-! ## aggregateResults -/

/-- The `technicalDebt` block of the scan summary. -/
structure TechnicalDebtSummary where
  totalMinutes : ℕ
  debtRatio : ℚ
  sqaleRating : String
  maintainabilityIndex : ℚ
deriving DecidableEq

/-- The `complexity` block of the scan summary. -/
structure ComplexitySummary where
  avgCyclomatic : ℚ
  avgCognitive : ℚ
  highComplexityFiles : ℕ
deriving DecidableEq

/-- The `quality` block of the scan summary. -/
structure QualitySummary where
  codeSmells : ℕ
  securityIssues : ℕ
  testCoverage : ℚ
deriving DecidableEq

/-- The `summary` block of `ScanResult`. -/
structure ScanSummary where
  totalFiles : ℕ
  totalLines : ℕ
  totalIssues : ℕ
  criticalIssues : ℕ
  technicalDebt : TechnicalDebtSummary
  complexity : ComplexitySummary
  quality : QualitySummary
deriving DecidableEq

/-- One `fileMetrics` entry. -/
structure FileMetric where
  file : String
  lines : ℕ
  complexity : ComplexityMetrics
  issues : ℕ
  debtMinutes : ℕ
deriving DecidableEq

/-- One `trends.worstFiles` entry. -/
structure WorstFile where
  file : String
  score : ℚ
  reason : String
deriving DecidableEq

/-- One `trends.quickWins` entry. -/
structure QuickWin where
  file : String
  effort : ℕ
  impact : String
deriving DecidableEq

/-- The `trends` block of `ScanResult`. -/
structure Trends where
  worstFiles : List WorstFile
  quickWins : List QuickWin
  criticalPath : List String
deriving DecidableEq

/-- The `ScanResult` record. -/
structure ScanResult where
  summary : ScanSummary
  businessImpact : BusinessImpact
  issues : List Issue
  fileMetrics : List FileMetric
  trends : Trends
deriving DecidableEq

/-- One per-file input of `aggregateResults` (the scanner pairs the path
with `scanFile`'s result). -/
structure FileResult where
  file : String
  complexity : ComplexityMetrics
  codeSmells : List CodeSmell
  securityIssues : List SecurityIssue
  lines : ℕ
  commentLines : ℕ
deriving DecidableEq

/-- The per-file debt: the sum of all its findings' efforts, in the order
the aggregation loop adds them. -/
def fileDebt (r : FileResult) : ℕ :=
  (r.codeSmells.map (fun s => s.effort)).sum +
  (r.securityIssues.map (fun s => s.effort)).sum

/-- The `fileMetrics` entry the aggregation loop pushes for one file. -/
def mkFileMetric (r : FileResult) : FileMetric :=
  { file := r.file, lines := r.lines, complexity := r.complexity,
    issues := r.codeSmells.length + r.securityIssues.length,
    debtMinutes := fileDebt r }

/-- The `worstFiles` entry built from a file metric: score from
`calculateFileScore` and a reason by the priority issue count >
complexity > size > "multiple factors". -/
def mkWorstFile (fm : FileMetric) : WorstFile :=
  { file := fm.file,
    score := calculateFileScore fm.complexity fm.issues fm.lines,
    reason :=
      if fm.issues > 5 then "High issue count"
      else if fm.complexity.cyclomatic > 50 then "High complexity"
      else if fm.lines > 1000 then "Large file size"
      else "Multiple factors" }

/-- `aggregateResults`.  The source's single accumulation loop is written
as the equivalent maps and sums over `fileResults`; the two
`Array.prototype.sort` calls (stable since ES2019, with numeric
comparators) are modelled by stable merge sorts. -/
def aggregateResults (fileResults : List FileResult) (testCoverage : ℚ) :
    ScanResult :=
  let allIssues := fileResults.flatMap (fun r =>
    r.codeSmells.map (smellIssue r.file) ++ r.securityIssues.map (secIssue r.file))
  let fileMetrics := fileResults.map mkFileMetric
  let totalLines : ℕ := (fileResults.map (fun r => r.lines)).sum
  let totalCommentLines : ℕ := (fileResults.map (fun r => r.commentLines)).sum
  let totalCyclomatic : ℕ := (fileResults.map (fun r => r.complexity.cyclomatic)).sum
  let totalCognitive : ℕ := (fileResults.map (fun r => r.complexity.cognitive)).sum
  let totalDebtMinutes : ℕ := (fileResults.map fileDebt).sum
  let highComplexityFiles := (fileResults.filter (fun r =>
    r.complexity.cyclomatic > 50 || r.complexity.cognitive > 50)).length
  let avgCyclomatic : ℚ :=
    if fileResults.length > 0 then (totalCyclomatic : ℚ) / fileResults.length else 0
  let avgCognitive : ℚ :=
    if fileResults.length > 0 then (totalCognitive : ℚ) / fileResults.length else 0
  let commentRatio : ℚ :=
    if totalLines > 0 then (totalCommentLines : ℚ) / totalLines else 0
  let debtRatio := calculateDebtRatio totalDebtMinutes totalLines
  let sqaleRating := calculateSQALERating debtRatio
  let maintainabilityIndex :=
    calculateMaintainabilityIndex totalLines totalCyclomatic commentRatio
  let criticalIssues := (allIssues.filter (fun i =>
    i.severity == "blocker" || i.severity == "critical")).length
  let securityIssues := (allIssues.filter (fun i => i.category == "security")).length
  let codeSmells := (allIssues.filter (fun i => i.category == "maintainability")).length
  let businessImpact := calculateBusinessImpact totalDebtMinutes totalLines
    allIssues totalCyclomatic codeSmells testCoverage
  let worstFiles :=
    ((fileMetrics.map mkWorstFile).mergeSort
      (fun a b => decide (a.score ≤ b.score))).take 10
  let quickWins :=
    ((allIssues.filter (fun i =>
      i.effort < 30 && (i.severity == "critical" || i.severity == "major"))).map
      (fun i => { file := i.file, effort := i.effort,
                  impact := i.businessImpact : QuickWin })).take 10
  let criticalPath :=
    (((fileMetrics.filter (fun fm => fm.issues > 0)).mergeSort
      (fun a b => decide (b.debtMinutes ≤ a.debtMinutes))).take 5).map
      (fun fm => fm.file)
  { summary :=
      { totalFiles := fileResults.length,
        totalLines := totalLines,
        totalIssues := allIssues.length,
        criticalIssues := criticalIssues,
        technicalDebt :=
          { totalMinutes := totalDebtMinutes, debtRatio := debtRatio,
            sqaleRating := sqaleRating,
            maintainabilityIndex := maintainabilityIndex },
        complexity :=
          { avgCyclomatic := avgCyclomatic, avgCognitive := avgCognitive,
            highComplexityFiles := highComplexityFiles },
        quality :=
          { codeSmells := codeSmells, securityIssues := securityIssues,
            testCoverage := testCoverage } },
    businessImpact := businessImpact,
    issues := allIssues,
    fileMetrics := fileMetrics,
    trends :=
      { worstFiles := worstFiles, quickWins := quickWins,
        criticalPath := criticalPath } }

/-- The whole scan of a fixed file set: every `(path, content)` pair goes
through `scanFile` and the results are aggregated. -/
def scanAndAggregate (files : List (String × String)) (testCoverage : ℚ) :
    ScanResult :=
  aggregateResults (files.map (fun pc =>
    let r := scanFile pc.2 pc.1
    { file := pc.1, complexity := r.complexity, codeSmells := r.codeSmells,
      securityIssues := r.securityIssues, lines := r.lines,
      commentLines := r.commentLines })) testCoverage

/-! ## Claim-side definitions and concrete inputs -/

/-- The branch outcome realized by the 22-line file
`"try \x7b // TODO\n} catch (error) \x7b console.log(a // b)\n\x7b\x7b\n}}\n// eslint-disable prettier-ignore\n…"`
(three boilerplate patterns, four thrice-repeated structure lines, no
generic variable names with more than 20 code lines, a debugging artifact,
and nothing else): `aiScore = 15 + 20 = 35`, `humanScore = 18 + 12 = 30`. -/
def sigBad : AISignals :=
  { lowComplexity := false, highKeywordDensity := false,
    uniformFunctions := false, commentSignal := .balanced,
    genericComments := false, genericVars := .noneWithCode,
    perfectIndentation := false, boilerplate := true,
    repetitiveStructures := true, signatureHits := 0,
    contextualComments := false, domainNaming := false,
    refactoringEvidence := false, debuggingArtifacts := true }

/-- The 6-line block whose trimmed, newline-joined text has length exactly
50 (five 8-character lines and one 5-character line, plus 5 separators). -/
def c2blockLines : List String :=
  ["aaaaaaaa", "bbbbbbbb", "cccccccc", "dddddddd", "eeeeeeee", "fffff"]

/-- A 42-line file made of 7 consecutive occurrences of `c2blockLines`. -/
def c2bad : String :=
  String.intercalate "\n" (List.flatten (List.replicate 7 c2blockLines))

/-- The claim's window list: every 6-line sliding window (trimmed, blanks
dropped, joined with newlines) whose text is over 50 characters long. -/
def qualWindowKeys (lines : List (List Char)) : List (List Char) :=
  ((List.range (lines.length - 5)).map (blockAt lines)).filter
    (fun b => b.length > 50)

/-- The claim's block count: the number of distinct qualifying windows seen
more than once in the file. -/
def specDupBlocks (lines : List (List Char)) : ℕ :=
  (((qualWindowKeys lines).dedup).filter
    (fun b => 1 < (qualWindowKeys lines).count b)).length

/-- The length of the occurrence list stored under a key of the
duplication map. -/
def lookupOcc : List (List Char × List ℕ) → List Char → ℕ
  | [], _ => 0
  | (k, os) :: rest, key => if k = key then os.length else lookupOcc rest key

/-- The worst-file score exactly as the claim words it:
`100 − min(cyclomatic/10,30) − min(cognitive/10,20) − min(issues×2,30)
− (10 if lines>500) − (10 if lines>1000)`, clamped to be ≥ 0. -/
def worstFileScoreSpec (c : ComplexityMetrics) (issues lines : ℕ) : ℚ :=
  max 0 (100 - min ((c.cyclomatic : ℚ) / 10) 30
           - min ((c.cognitive : ℚ) / 10) 20
           - min ((issues : ℚ) * 2) 30
           - (if lines > 500 then 10 else 0)
           - (if lines > 1000 then 10 else 0))

/-- The worst-file reason exactly as the claim words it: issue count, then
complexity, then size, then "multiple factors". -/
def worstFileReasonSpec (fm : FileMetric) : String :=
  if fm.issues > 5 then "High issue count"
  else if fm.complexity.cyclomatic > 50 then "High complexity"
  else if fm.lines > 1000 then "Large file size"
  else "Multiple factors"

/-- The worst-files entry as the claim describes it. -/
def mkWorstFileSpec (fm : FileMetric) : WorstFile :=
  { file := fm.file,
    score := worstFileScoreSpec fm.complexity fm.issues fm.lines,
    reason := worstFileReasonSpec fm }

/-- Does a line match some secret pattern (any of the four, statelessly)? -/
def lineSecretMatch (line : List Char) : Bool :=
  reTest secretPat1 line || reTest secretPat2 line ||
  reTest secretPat3 line || reTest secretPat4 line

/-- The two-line counterexample content of the hardcoded-secret rule: the
same 44-character line twice, each holding a 32-character quoted literal
and no accessor. -/
def c7line : String := "const k = \"ABCDEFGHIJKLMNOPQRSTUVWXYZ123456\""

/-- Two identical secret-bearing lines. -/
def c7bad : String := c7line ++ "\n" ++ c7line

/-- A 42-line file of identical 8-character lines: 7 occurrences of an
identical 6-line block whose window text has length 53 > 50 (and 37 equal
sliding windows in all, still one distinct duplicated block). -/
def c2good : String :=
  String.intercalate "\n" (List.replicate 42 "abcdefgh")

/-- Folding a list of `(key, index)` pairs into the occurrence map. -/
def occFold (m : List (List Char × List ℕ)) (ps : List (List Char × ℕ)) :
    List (List Char × List ℕ) :=
  ps.foldl (fun m p => addOcc m p.1 p.2) m

/-- The qualifying `(window text, start index)` pairs in window order. -/
def dupPairs (lines : List (List Char)) : List (List Char × ℕ) :=
  (List.range (lines.length - 5)).filterMap (fun i =>
    let b := blockAt lines i
    if b.length > 50 then some (b, i) else none)

/-! ## Theorems -/

/-- Claim C6: for every input content string and file extension the
cyclomatic complexity computed by the Complexity Analyzer is at least 1
(it counts one per control-flow match on top of the base complexity 1),
and so is the `cyclomatic` field of every analyzed file's
`ComplexityMetrics`. -/
theorem cyclomatic_at_least_one :
    ∀ (content fileExtension filePath : String),
      1 ≤ calculateCyclomaticComplexity content fileExtension ∧
      1 ≤ (analyzeComplexity content filePath).cyclomatic := by
  intro content ext path
  refine ⟨Nat.le_add_right 1 _, ?_⟩
  show 1 ≤ calculateCyclomaticComplexity content (extOf path)
  exact Nat.le_add_right 1 _

/-- Claim C1 (code bug): at the branch outcome `sigBad` — realized by a
concrete 22-line file with three boilerplate patterns, four
thrice-repeated structure lines, no generic variable names over more than
20 code lines and a console-debugging artifact — the scores are
`aiScore = 35` and `humanScore = 30`, the pre-rounding likelihood is
exactly `62.5`, and the independently rounded pair returned by
`analyzeAICode` is `(63, 38)`: the two fields sum to 101, not 100. -/
theorem likelihood_sum_is_101_at_sigBad :
    aiScoreOf sigBad = 35 ∧ humanScoreOf sigBad = 30 ∧
    likelihoodPair 35 30 = (63, 38) ∧ (63 : ℤ) + 38 = 101 := by
  refine ⟨by decide, by decide, ?_, by decide⟩
  have h : aiLikelihoodRaw 35 30 = 125/2 := by
    unfold aiLikelihoodRaw
    norm_num
  have h1 : jsRound (125/2) = 63 := by
    unfold jsRound; norm_num [Rat.floor_def']
  have h2 : jsRound (100 - 125/2) = 38 := by
    unfold jsRound; norm_num [Rat.floor_def']
  show (jsRound (aiLikelihoodRaw 35 30), jsRound (100 - aiLikelihoodRaw 35 30))
    = (63, 38)
  rw [h, h1, h2]

/-- Claim C3 (counterexample): on the empty input the text metrics are not
all zero — splitting the empty string on newlines yields one empty line,
so the total line count and blank line count are both 1. -/
theorem empty_input_counts_cex :
    (aiMetadata "").totalLines = 1 ∧ (aiMetadata "").blankLines = 1 ∧
    (scanFile "" "file.ts").lines = 1 := by
  decide

/-- Claim C3 (amended): on the empty input no error is raised and the
extraction returns code and comment counts of 0, while the total and
blank line counts are 1 (the one empty line produced by the split);
`scanFile` likewise reports 1 line and 0 comment lines. -/
theorem empty_input_counts :
    aiMetadata "" =
      { totalLines := 1, codeLines := 0, commentLines := 0, blankLines := 1 } ∧
    (scanFile "" "file.ts").lines = 1 ∧
    (scanFile "" "file.ts").commentLines = 0 := by
  decide

/-! ### The duplication rule (C2) -/

theorem addOcc_lookup_self (m : List (List Char × List ℕ)) (k : List Char) (i : ℕ) :
    lookupOcc (addOcc m k i) k = lookupOcc m k + 1 := by
  induction m with
  | nil => simp [addOcc, lookupOcc]
  | cons e rest ih =>
      obtain ⟨k0, os⟩ := e
      by_cases h : k0 = k
      · subst h
        simp [addOcc, lookupOcc]
      · simp [addOcc, lookupOcc, h, ih]

theorem addOcc_lookup_ne (m : List (List Char × List ℕ)) (k k' : List Char)
    (i : ℕ) (h : k' ≠ k) :
    lookupOcc (addOcc m k i) k' = lookupOcc m k' := by
  induction m with
  | nil => simp [addOcc, lookupOcc, Ne.symm h]
  | cons e rest ih =>
      obtain ⟨k0, os⟩ := e
      by_cases h0 : k0 = k
      · subst h0
        simp [addOcc, lookupOcc, Ne.symm h]
      · by_cases h1 : k0 = k'
        · simp [addOcc, lookupOcc, h0, h1, h]
        · simp [addOcc, lookupOcc, h0, h1, ih]

theorem addOcc_keys_mem (m : List (List Char × List ℕ)) (k k' : List Char) (i : ℕ) :
    k' ∈ (addOcc m k i).map Prod.fst ↔ k' ∈ m.map Prod.fst ∨ k' = k := by
  induction m with
  | nil => simp [addOcc]
  | cons e rest ih =>
      obtain ⟨k0, os⟩ := e
      by_cases h0 : k0 = k
      · subst h0
        simp only [addOcc, if_pos]
        simp
        tauto
      · simp only [addOcc, if_neg h0, List.map_cons, List.mem_cons, ih]
        tauto

theorem addOcc_keys_nodup (m : List (List Char × List ℕ)) (k : List Char) (i : ℕ)
    (h : (m.map Prod.fst).Nodup) : ((addOcc m k i).map Prod.fst).Nodup := by
  induction m with
  | nil => simp [addOcc]
  | cons e rest ih =>
      obtain ⟨k0, os⟩ := e
      simp only [List.map_cons, List.nodup_cons] at h
      by_cases h0 : k0 = k
      · subst h0
        simp only [addOcc, if_pos]
        simp only [List.map_cons, List.nodup_cons]
        exact h
      · simp only [addOcc, if_neg h0, List.map_cons, List.nodup_cons]
        refine ⟨?_, ih h.2⟩
        rw [addOcc_keys_mem]
        rintro (hm | hm)
        · exact h.1 hm
        · exact h0 hm

theorem occFold_lookup (ps : List (List Char × ℕ)) :
    ∀ m k, lookupOcc (occFold m ps) k =
      lookupOcc m k + (ps.map Prod.fst).count k := by
  induction ps with
  | nil => simp [occFold]
  | cons p rest ih =>
      intro m k
      have step : occFold m (p :: rest) = occFold (addOcc m p.1 p.2) rest := rfl
      rw [step, ih]
      by_cases h : p.1 = k
      · subst h
        rw [addOcc_lookup_self]
        simp [List.count_cons]
        omega
      · rw [addOcc_lookup_ne _ _ _ _ (Ne.symm h)]
        simp [List.count_cons, h]

theorem occFold_keys_mem (ps : List (List Char × ℕ)) :
    ∀ m k, k ∈ (occFold m ps).map Prod.fst ↔
      k ∈ m.map Prod.fst ∨ k ∈ ps.map Prod.fst := by
  induction ps with
  | nil => simp [occFold]
  | cons p rest ih =>
      intro m k
      have step : occFold m (p :: rest) = occFold (addOcc m p.1 p.2) rest := rfl
      rw [step, ih, addOcc_keys_mem]
      simp only [List.map_cons, List.mem_cons]
      tauto

theorem occFold_keys_nodup (ps : List (List Char × ℕ)) :
    ∀ m, (m.map Prod.fst).Nodup → ((occFold m ps).map Prod.fst).Nodup := by
  induction ps with
  | nil => intro m h; exact h
  | cons p rest ih =>
      intro m h
      exact ih _ (addOcc_keys_nodup _ _ _ h)

theorem entries_len_eq_lookup (m : List (List Char × List ℕ))
    (h : (m.map Prod.fst).Nodup) :
    ∀ e ∈ m, e.2.length = lookupOcc m e.1 := by
  induction m with
  | nil => simp
  | cons e0 rest ih =>
      obtain ⟨k0, os⟩ := e0
      simp only [List.map_cons, List.nodup_cons] at h
      intro e he
      rcases List.mem_cons.mp he with he0 | he1
      · subst he0
        simp [lookupOcc]
      · have hk : k0 ≠ e.1 := by
          intro hk
          exact h.1 (hk ▸ List.mem_map.mpr ⟨e, he1, rfl⟩)
        simp only [lookupOcc, if_neg hk]
        exact ih h.2 e he1

end TD
namespace TD

theorem foldGuard (f : ℕ → List Char) (l : List ℕ) :
    ∀ m, l.foldl (fun m i => if (f i).length > 50 then addOcc m (f i) i else m) m =
      occFold m (l.filterMap (fun i =>
        if (f i).length > 50 then some (f i, i) else none)) := by
  induction l with
  | nil => intro m; rfl
  | cons j rest ih =>
      intro m
      by_cases h : (f j).length > 50
      · simp only [List.foldl_cons, List.filterMap_cons, if_pos h]
        exact ih (addOcc m (f j) j)
      · simp only [List.foldl_cons, List.filterMap_cons, if_neg h]
        exact ih m

theorem filterMapPairs_fst (f : ℕ → List Char) (l : List ℕ) :
    (l.filterMap (fun i =>
      if (f i).length > 50 then some (f i, i) else none)).map Prod.fst
      = (l.map f).filter (fun b => b.length > 50) := by
  induction l with
  | nil => rfl
  | cons j rest ih =>
      by_cases h : (f j).length > 50
      · simp [List.filterMap_cons, List.filter_cons, h, ih]
      · simp [List.filterMap_cons, List.filter_cons, h, ih]

theorem dupMap_eq_occFold (lines : List (List Char)) :
    dupMap lines = occFold [] (dupPairs lines) := by
  have := foldGuard (blockAt lines) (List.range (lines.length - 5)) []
  simpa [dupMap, dupPairs] using this

theorem dupPairs_fst (lines : List (List Char)) :
    (dupPairs lines).map Prod.fst = qualWindowKeys lines := by
  have := filterMapPairs_fst (blockAt lines) (List.range (lines.length - 5))
  simpa [dupPairs, qualWindowKeys] using this

theorem duplicateBlocks_eq_spec (lines : List (List Char)) :
    duplicateBlocks lines = specDupBlocks lines := by
  have h0 : dupMap lines = occFold [] (dupPairs lines) := dupMap_eq_occFold lines
  have hfst : (dupPairs lines).map Prod.fst = qualWindowKeys lines :=
    dupPairs_fst lines
  have hnodup : ((occFold [] (dupPairs lines)).map Prod.fst).Nodup :=
    occFold_keys_nodup _ [] (by simp)
  have hlook : ∀ k, lookupOcc (occFold [] (dupPairs lines)) k =
      (qualWindowKeys lines).count k := by
    intro k
    rw [occFold_lookup, hfst]
    simp [lookupOcc]
  have hmem : ∀ k, k ∈ (occFold [] (dupPairs lines)).map Prod.fst ↔
      k ∈ (qualWindowKeys lines).dedup := by
    intro k
    rw [occFold_keys_mem, hfst, List.mem_dedup]
    simp
  have hperm : List.Perm ((occFold [] (dupPairs lines)).map Prod.fst)
      ((qualWindowKeys lines).dedup) := by
    rw [List.perm_ext_iff_of_nodup hnodup (List.nodup_dedup _)]
    exact hmem
  unfold duplicateBlocks specDupBlocks
  rw [h0]
  rw [List.filter_congr (fun e he => ?ptw)]
  case ptw =>
    show decide (e.2.length > 1) = decide (1 < lookupOcc (occFold [] (dupPairs lines)) e.1)
    rw [entries_len_eq_lookup _ hnodup e he]
  rw [show (fun e : List Char × List ℕ =>
      decide (1 < lookupOcc (occFold [] (dupPairs lines)) e.1)) =
      ((fun k => decide (1 < lookupOcc (occFold [] (dupPairs lines)) k)) ∘ Prod.fst)
    from rfl]
  calc (List.filter ((fun k => decide (1 < lookupOcc (occFold [] (dupPairs lines)) k)) ∘ Prod.fst)
        (occFold [] (dupPairs lines))).length
      = ((List.filter ((fun k => decide (1 < lookupOcc (occFold [] (dupPairs lines)) k)) ∘ Prod.fst)
        (occFold [] (dupPairs lines))).map Prod.fst).length := (List.length_map _ _).symm
    _ = (((occFold [] (dupPairs lines)).map Prod.fst).filter
        (fun k => decide (1 < lookupOcc (occFold [] (dupPairs lines)) k))).length := by
          rw [List.filter_map]
    _ = (((occFold [] (dupPairs lines)).map Prod.fst).filter
        (fun k => decide (1 < List.count k (qualWindowKeys lines)))).length := by
          rw [List.filter_congr (fun k _ => by rw [hlook k])]
    _ = ((qualWindowKeys lines).dedup.filter
        (fun k => decide (1 < List.count k (qualWindowKeys lines)))).length :=
          (hperm.filter _).length_eq

set_option maxRecDepth 4000

/-- Claim C2 (counterexample): a 42-line file consisting of 7 occurrences
of an identical 6-line block whose trimmed, newline-joined window text has
length exactly 50 — so "each occurrence length ≥ 50 chars" holds — yields
no `code_duplication` finding at all, because the rule requires the joined
text to be strictly over 50 characters. -/
theorem duplication_scenario_cex :
    (blockAt (linesOf c2bad) 0).length = 50 ∧
    blockAt (linesOf c2bad) 6 = blockAt (linesOf c2bad) 0 ∧
    blockAt (linesOf c2bad) 12 = blockAt (linesOf c2bad) 0 ∧
    blockAt (linesOf c2bad) 18 = blockAt (linesOf c2bad) 0 ∧
    blockAt (linesOf c2bad) 24 = blockAt (linesOf c2bad) 0 ∧
    blockAt (linesOf c2bad) 30 = blockAt (linesOf c2bad) 0 ∧
    blockAt (linesOf c2bad) 36 = blockAt (linesOf c2bad) 0 ∧
    detectDuplication c2bad = [] := by
  decide

/-- Claim C2 (amended): for every input file the duplication rule reports
at most one `code_duplication` finding; one is emitted exactly when some
6-line sliding window (trimmed, blanks dropped, joined length strictly
over 50 characters) occurs more than once in the file; its effort is
`blocks × 30` where `blocks` is the number of distinct such windows seen
more than once, and its severity is major when `blocks > 5`, else minor.
The final conjunct shows the concrete scenario with the threshold
satisfied: a file of 7 occurrences of an identical 6-line block (window
text 53 characters) registers exactly one finding with
`effort = blocks × 30 = 1 × 30`, blocks being distinct duplicated windows,
not the raw occurrence count. -/
theorem duplication_rule :
    ∀ content : String,
      (detectDuplication content).length ≤ 1 ∧
      (detectDuplication content ≠ [] ↔
        ∃ b ∈ qualWindowKeys (linesOf content),
          1 < (qualWindowKeys (linesOf content)).count b) ∧
      (∀ s ∈ detectDuplication content,
        s.type = "code_duplication" ∧
        s.effort = specDupBlocks (linesOf content) * 30 ∧
        s.severity = (if specDupBlocks (linesOf content) > 5 then "major" else "minor")) ∧
      detectDuplication c2good =
        [{ type := "code_duplication", severity := "minor", line := none,
           message := "1 duplicate code blocks detected. Consider extracting common functionality.",
           effort := 1 * 30 }] := by
  intro content
  have hdb := duplicateBlocks_eq_spec (linesOf content)
  have hiff : 0 < specDupBlocks (linesOf content) ↔
      ∃ b ∈ qualWindowKeys (linesOf content),
        1 < (qualWindowKeys (linesOf content)).count b := by
    unfold specDupBlocks
    rw [List.length_pos_iff_exists_mem]
    constructor
    · rintro ⟨b, hb⟩
      rw [List.mem_filter] at hb
      exact ⟨b, (List.mem_dedup).mp hb.1, by simpa using hb.2⟩
    · rintro ⟨b, hb, hc⟩
      exact ⟨b, List.mem_filter.mpr ⟨(List.mem_dedup).mpr hb, by simpa using hc⟩⟩
  by_cases h : duplicateBlocks (linesOf content) > 0
  · refine ⟨?_, ?_, ?_, by decide⟩
    · simp [detectDuplication, h]
    · simp only [detectDuplication, if_pos h]
      constructor
      · intro _
        exact hiff.mp (hdb ▸ h)
      · intro _
        simp
    · intro s hs
      simp only [detectDuplication, if_pos h, List.mem_singleton] at hs
      subst hs
      exact ⟨rfl, by rw [← hdb], by rw [← hdb]⟩
  · refine ⟨?_, ?_, ?_, by decide⟩
    · simp [detectDuplication, h]
    · simp only [detectDuplication, if_neg h]
      constructor
      · intro hne
        exact absurd rfl hne
      · rintro hex
        exact absurd (hdb ▸ hiff.mpr hex) h
    · intro s hs
      simp [detectDuplication, if_neg h] at hs

/-! ### The hardcoded-secret rule (C7) -/

theorem findAux_some_search (re : RE) :
    ∀ (r l : List Char) (st : List Char × List Char),
      findAux re l r = some st → searchAux re l r = true := by
  intro r
  induction r with
  | nil =>
      intro l st h
      simp only [findAux] at h
      simp only [searchAux]
      cases hm : (matchEnds re (l, [])).head? with
      | none => rw [hm] at h; exact absurd h (by simp)
      | some st2 =>
          have : matchEnds re (l, []) ≠ [] := by
            intro he; rw [he] at hm; simp at hm
          simpa [List.isEmpty_iff] using this
  | cons c rest ih =>
      intro l st h
      simp only [findAux] at h
      simp only [searchAux]
      cases hm : (matchEnds re (l, c :: rest)).head? with
      | some st2 =>
          have : matchEnds re (l, c :: rest) ≠ [] := by
            intro he; rw [he] at hm; simp at hm
          simp [List.isEmpty_iff, this]
      | none =>
          rw [hm] at h
          rw [ih (c :: l) st h]
          simp

theorem searchAux_step (re : RE) (s : List Char) (li : ℕ)
    (h : searchAux re ((s.take (li + 1)).reverse) (s.drop (li + 1)) = true) :
    searchAux re ((s.take li).reverse) (s.drop li) = true := by
  by_cases hl : li < s.length
  · have hdrop : s.drop li = s[li] :: s.drop (li + 1) :=
      List.drop_eq_getElem_cons hl
    have htake : s.take (li + 1) = s.take li ++ [s[li]] := by
      rw [List.take_succ]
      congr 1
      simp [List.getElem?_eq_getElem hl]
    rw [hdrop, searchAux]
    rw [htake] at h
    simp only [List.reverse_append, List.reverse_singleton,
      List.singleton_append] at h
    rw [h]
    simp
  · have hle : s.length ≤ li := Nat.le_of_not_lt hl
    rw [List.take_of_length_le hle, List.drop_of_length_le hle]
    rw [List.take_of_length_le (Nat.le_succ_of_le hle),
        List.drop_of_length_le (Nat.le_succ_of_le hle)] at h
    exact h

theorem searchAux_from (re : RE) (s : List Char) :
    ∀ li, searchAux re ((s.take li).reverse) (s.drop li) = true →
      reTest re s = true := by
  intro li
  induction li with
  | zero => intro h; simpa [reTest] using h
  | succ li ih => intro h; exact ih (searchAux_step re s li h)

theorem execFrom_some_test (re : RE) (s : List Char) (start : ℕ) (e : ℕ)
    (h : execFrom re s start = some e) : reTest re s = true := by
  unfold execFrom at h
  split at h
  · cases hf : findAux re (s.take start).reverse (s.drop start) with
    | none => rw [hf] at h; exact absurd h (by simp)
    | some st =>
        exact searchAux_from re s start
          (findAux_some_search re _ _ _ hf)
  · exact absurd h (by simp)

theorem secretsLoop_sound :
    ∀ (lines : List (List Char)) (i li : ℕ),
      ∀ iss ∈ secretsLoop lines i li,
        iss.type = "hardcoded_secret" ∧ iss.severity = "blocker" ∧
        iss.effort = 15 ∧ iss.cwe = some "CWE-798" ∧
        ∃ j lc, lines.get? j = some lc ∧ iss.line = some (i + j + 1) ∧
          lineSecretMatch lc = true ∧ noAccessor lc = true := by
  intro lines
  induction lines with
  | nil => intro i li iss hm; simp [secretsLoop] at hm
  | cons line rest ih =>
      intro i li iss hm
      have tail : ∀ li2, iss ∈ secretsLoop rest (i + 1) li2 →
          iss.type = "hardcoded_secret" ∧ iss.severity = "blocker" ∧
          iss.effort = 15 ∧ iss.cwe = some "CWE-798" ∧
          ∃ j lc, (line :: rest).get? j = some lc ∧
            iss.line = some (i + j + 1) ∧
            lineSecretMatch lc = true ∧ noAccessor lc = true := by
        intro li2 hm2
        obtain ⟨ht, hs, he, hc, j, lc, hg, hl, hmt, hok⟩ := ih (i + 1) li2 iss hm2
        refine ⟨ht, hs, he, hc, j + 1, lc, hg, ?_, hmt, hok⟩
        rw [hl]
        exact congrArg some (by omega)
      have head : ∀ msg, iss = mkSecretIssue (i + 1) msg →
          lineSecretMatch line = true → noAccessor line = true →
          iss.type = "hardcoded_secret" ∧ iss.severity = "blocker" ∧
          iss.effort = 15 ∧ iss.cwe = some "CWE-798" ∧
          ∃ j lc, (line :: rest).get? j = some lc ∧
            iss.line = some (i + j + 1) ∧
            lineSecretMatch lc = true ∧ noAccessor lc = true := by
        intro msg hiss hmt hok
        subst hiss
        exact ⟨rfl, rfl, rfl, rfl, 0, line, rfl, rfl, hmt, hok⟩
      simp only [secretsLoop] at hm
      split at hm
      next h1 =>
        simp only [Bool.and_eq_true] at h1
        rcases List.mem_cons.mp hm with rfl | hm2
        · exact head _ rfl (by simp [lineSecretMatch, h1.1]) h1.2
        · exact tail li hm2
      next h1 =>
      split at hm
      next h2 =>
        simp only [Bool.and_eq_true] at h2
        rcases List.mem_cons.mp hm with rfl | hm2
        · exact head _ rfl (by simp [lineSecretMatch, h2.1]) h2.2
        · exact tail li hm2
      next h2 =>
      split at hm
      next h3 =>
        simp only [Bool.and_eq_true] at h3
        rcases List.mem_cons.mp hm with rfl | hm2
        · exact head _ rfl (by simp [lineSecretMatch, h3.1]) h3.2
        · exact tail li hm2
      next h3 =>
      split at hm
      next e hex =>
        split at hm
        next hok =>
          rcases List.mem_cons.mp hm with rfl | hm2
          · exact head _ rfl
              (by simp [lineSecretMatch, execFrom_some_test _ _ _ _ hex]) hok
          · exact tail e hm2
        next hok => exact tail e hm
      next hex => exact tail 0 hm

theorem secretsLoop_complete :
    ∀ (lines : List (List Char)) (i li j : ℕ) (lc : List Char),
      lines.get? j = some lc →
      (reTest secretPat1 lc || reTest secretPat2 lc || reTest secretPat3 lc) = true →
      noAccessor lc = true →
      ∃ iss ∈ secretsLoop lines i li, iss.line = some (i + j + 1) := by
  intro lines
  induction lines with
  | nil => intro i li j lc hg; simp at hg
  | cons line rest ih =>
      intro i li j lc hg hp hok
      cases j with
      | zero =>
          have hlc : line = lc := by
            have : some line = some lc := hg
            injection this
          subst hlc
          simp only [secretsLoop]
          simp only [Bool.or_eq_true] at hp
          rcases hp with (hp1 | hp2) | hp3
          · rw [if_pos (by simp [hp1, hok])]
            exact ⟨_, List.mem_cons_self _ _, rfl⟩
          · by_cases h1 : reTest secretPat1 line && noAccessor line
            · rw [if_pos h1]
              exact ⟨_, List.mem_cons_self _ _, rfl⟩
            · rw [if_neg h1, if_pos (by simp [hp2, hok])]
              exact ⟨_, List.mem_cons_self _ _, rfl⟩
          · by_cases h1 : reTest secretPat1 line && noAccessor line
            · rw [if_pos h1]
              exact ⟨_, List.mem_cons_self _ _, rfl⟩
            · rw [if_neg h1]
              by_cases h2 : reTest secretPat2 line && noAccessor line
              · rw [if_pos h2]
                exact ⟨_, List.mem_cons_self _ _, rfl⟩
              · rw [if_neg h2, if_pos (by simp [hp3, hok])]
                exact ⟨_, List.mem_cons_self _ _, rfl⟩
      | succ j0 =>
          have hg0 : rest.get? j0 = some lc := hg
          have shift : ∀ li2, ∃ iss ∈ secretsLoop rest (i + 1) li2,
              iss.line = some (i + (j0 + 1) + 1) := by
            intro li2
            obtain ⟨iss, hm, hl⟩ := ih (i + 1) li2 j0 lc hg0 hp hok
            exact ⟨iss, hm, by rw [hl]; exact congrArg some (by omega)⟩
          simp only [secretsLoop]
          split
          next h1 =>
            obtain ⟨iss, hm, hl⟩ := shift li
            exact ⟨iss, List.mem_cons_of_mem _ hm, hl⟩
          next h1 =>
          split
          next h2 =>
            obtain ⟨iss, hm, hl⟩ := shift li
            exact ⟨iss, List.mem_cons_of_mem _ hm, hl⟩
          next h2 =>
          split
          next h3 =>
            obtain ⟨iss, hm, hl⟩ := shift li
            exact ⟨iss, List.mem_cons_of_mem _ hm, hl⟩
          next h3 =>
          split
          next e hex =>
            split
            next hok2 =>
              obtain ⟨iss, hm, hl⟩ := shift e
              exact ⟨iss, List.mem_cons_of_mem _ hm, hl⟩
            next hok2 =>
              obtain ⟨iss, hm, hl⟩ := shift e
              exact ⟨iss, hm, hl⟩
          next hex =>
            obtain ⟨iss, hm, hl⟩ := shift 0
            exact ⟨iss, hm, hl⟩


/-- Claim C7 (counterexample): a file of two identical lines, each holding
a quoted 32-character alphanumeric literal and no accessor, yields exactly
one finding, at line 1: the long-literal pattern's global-flag `lastIndex`
persists across the per-line `test` calls, so line 2 — which matches the
patterns and lacks any accessor — is skipped, refuting "a finding is
emitted exactly when the line matches and lacks an accessor". -/
theorem secrets_stateful_cex :
    linesOf c7bad = [c7line.data, c7line.data] ∧
    lineSecretMatch c7line.data = true ∧
    noAccessor c7line.data = true ∧
    detectHardcodedSecrets c7bad =
      [mkSecretIssue 1 "Potential hardcoded credential detected"] := by
  decide

/-- Claim C7 (amended): every finding of the hardcoded-secret rule has
severity blocker, effort 15 and the CWE-798 weakness tag, and sits on a
line that matches one of the four secret patterns and references neither
an environment variable nor a config accessor (in particular no finding is
ever produced for a line containing an environment-variable accessor); and
conversely a line matching one of the three stateless password/key/secret/
token assignment patterns without an accessor always yields a finding at
that line.  (The converse can fail for the fourth, global-flag pattern —
see the counterexample.) -/
theorem hardcoded_secret_rule :
    ∀ content : String,
      (∀ iss ∈ detectHardcodedSecrets content,
        iss.type = "hardcoded_secret" ∧ iss.severity = "blocker" ∧
        iss.effort = 15 ∧ iss.cwe = some "CWE-798" ∧
        ∃ j lc, (linesOf content).get? j = some lc ∧
          iss.line = some (j + 1) ∧
          lineSecretMatch lc = true ∧ noAccessor lc = true) ∧
      (∀ (j : ℕ) (lc : List Char), (linesOf content).get? j = some lc →
        (reTest secretPat1 lc || reTest secretPat2 lc ||
          reTest secretPat3 lc) = true →
        noAccessor lc = true →
        ∃ iss ∈ detectHardcodedSecrets content, iss.line = some (j + 1)) := by
  intro content
  constructor
  · intro iss hm
    obtain ⟨ht, hs, he, hc, j, lc, hg, hl, hmt, hok⟩ :=
      secretsLoop_sound (linesOf content) 0 0 iss hm
    exact ⟨ht, hs, he, hc, j, lc, hg, by simpa using hl, hmt, hok⟩
  · intro j lc hg hp hok
    obtain ⟨iss, hm, hl⟩ :=
      secretsLoop_complete (linesOf content) 0 0 j lc hg hp hok
    exact ⟨iss, hm, by simpa using hl⟩

/-! ### The long-method rule (C8) -/

theorem lmLoop_eq_spans :
    ∀ (lines : List (List Char)) (i : ℕ) (inF : Bool) (start : ℕ)
      (brace : ℤ) (name : List Char),
      lmLoop lines i inF start brace name =
        ((lmSpans lines i inF start brace name).filter
          (fun sp => 50 < sp.len)).map
          (fun sp => mkLongSmell sp.name sp.start sp.len) := by
  intro lines
  induction lines with
  | nil => intro i inF start brace name; rfl
  | cons line rest ih =>
      intro i inF start brace name
      simp only [lmLoop, lmSpans]
      by_cases hd : (!inF && hasFnDecl line) = true
      · simp only [hd, Bool.or_true, if_pos, lt_self_iff_false, and_false,
          if_neg, if_true, reduceIte]
        exact ih _ _ _ _ _
      · simp only [hd, Bool.or_false, Bool.false_eq_true]
        by_cases hin : inF = true
        · simp only [hin, if_true, reduceIte]
          by_cases hcl :
              (brace + (if jsIncludes ['\x7b'] line = true then 1 else 0)
                - (if jsIncludes ['\x7d'] line = true then 1 else 0) = 0
                ∧ i > start)
          · rw [if_pos hcl, if_pos hcl, List.filter_cons]
            by_cases hlen : i - start > 50
            · rw [if_pos hlen]
              dsimp only
              simp only [hlen, decide_eq_true_eq, if_true, List.map_cons,
                List.singleton_append, reduceIte]
              rw [ih]
            · rw [if_neg hlen]
              dsimp only
              simp only [hlen, decide_eq_true_eq, if_false, List.nil_append,
                reduceIte]
              rw [ih]
          · rw [if_neg hcl, if_neg hcl]
            exact ih _ _ _ _ _
        · simp only [hin, if_false, Bool.false_eq_true, reduceIte]
          exact ih _ _ _ _ _

/-- Claim C8: the long-method rule flags exactly the functions whose
brace-balance-delimited span (from the declaration line to the line where
the balance returns to zero) exceeds 50 lines — `detectLongMethods` equals
the over-50 filter of all spans the same state machine delimits — and each
resulting finding has severity critical when the length exceeds 100 lines
and major otherwise, effort `ceil(length/10) × 15`, and the one-based
declaration line. -/
theorem long_method_rule :
    ∀ (content filePath : String),
      detectLongMethods content filePath =
        ((lmSpans (linesOf content) 0 false 0 0 []).filter
          (fun sp => 50 < sp.len)).map
          (fun sp => mkLongSmell sp.name sp.start sp.len) ∧
      ∀ (name : List Char) (start len : ℕ),
        (mkLongSmell name start len).severity =
          (if len > 100 then "critical" else "major") ∧
        (mkLongSmell name start len).effort = ceilDiv len 10 * 15 ∧
        (mkLongSmell name start len).line = some (start + 1) ∧
        (mkLongSmell name start len).type = "long_method" := by
  intro content filePath
  exact ⟨lmLoop_eq_spans _ _ _ _ _ _, fun name start len => ⟨rfl, rfl, rfl, rfl⟩⟩

/-! ### Issue counters and AI summary buckets (C9, C10) -/

theorem filter_cat_partition :
    ∀ l : List Issue,
      (∀ i ∈ l, i.category = "maintainability" ∨ i.category = "security") →
      (l.filter (fun i => i.category == "maintainability")).length +
        (l.filter (fun i => i.category == "security")).length = l.length := by
  intro l
  induction l with
  | nil => intro _; rfl
  | cons x rest ih =>
      intro h
      have hrest := ih (fun i hi => h i (List.mem_cons_of_mem _ hi))
      rcases h x (List.mem_cons_self _ _) with hx | hx <;>
        simp [List.filter_cons, hx, Nat.add_assoc, Nat.add_left_comm, hrest] <;>
        omega

/-- Claim C9: in every `ScanResult` produced by `aggregateResults`, every
issue carries category `maintainability` or `security`, and the two
quality counters partition the issue list:
`codeSmells + securityIssues = totalIssues`. -/
theorem issue_counters_partition :
    ∀ (fileResults : List FileResult) (testCoverage : ℚ),
      (∀ iss ∈ (aggregateResults fileResults testCoverage).issues,
        iss.category = "maintainability" ∨ iss.category = "security") ∧
      (aggregateResults fileResults testCoverage).summary.quality.codeSmells +
        (aggregateResults fileResults testCoverage).summary.quality.securityIssues =
        (aggregateResults fileResults testCoverage).summary.totalIssues := by
  intro frs tc
  have hmem : ∀ iss ∈ (aggregateResults frs tc).issues,
      iss.category = "maintainability" ∨ iss.category = "security" := by
    intro iss hm
    have hm2 : iss ∈ frs.flatMap (fun r =>
        r.codeSmells.map (smellIssue r.file) ++
        r.securityIssues.map (secIssue r.file)) := hm
    rw [List.mem_flatMap] at hm2
    obtain ⟨r, _, hm3⟩ := hm2
    rcases List.mem_append.mp hm3 with hm4 | hm4
    · obtain ⟨s, _, rfl⟩ := List.mem_map.mp hm4
      exact Or.inl rfl
    · obtain ⟨s, _, rfl⟩ := List.mem_map.mp hm4
      exact Or.inr rfl
  refine ⟨hmem, ?_⟩
  have h1 : (aggregateResults frs tc).summary.quality.codeSmells =
      ((aggregateResults frs tc).issues.filter
        (fun i => i.category == "maintainability")).length := rfl
  have h2 : (aggregateResults frs tc).summary.quality.securityIssues =
      ((aggregateResults frs tc).issues.filter
        (fun i => i.category == "security")).length := rfl
  have h3 : (aggregateResults frs tc).summary.totalIssues =
      (aggregateResults frs tc).issues.length := rfl
  rw [h1, h2, h3]
  exact filter_cat_partition _ hmem

theorem patternsFold_ai (ps : List AICodePattern) :
    ∀ st : GASState,
      (ps.foldl (fun st p =>
        { st with patternCounts := bumpCount st.patternCounts p.type,
                  totalConfidence := st.totalConfidence + p.confidence })
        st).aiGeneratedFiles = st.aiGeneratedFiles := by
  induction ps with
  | nil => intro st; rfl
  | cons p rest ih => intro st; exact ih _

theorem patternsFold_human (ps : List AICodePattern) :
    ∀ st : GASState,
      (ps.foldl (fun st p =>
        { st with patternCounts := bumpCount st.patternCounts p.type,
                  totalConfidence := st.totalConfidence + p.confidence })
        st).humanWrittenFiles = st.humanWrittenFiles := by
  induction ps with
  | nil => intro st; rfl
  | cons p rest ih => intro st; exact ih _

theorem patternsFold_mixed (ps : List AICodePattern) :
    ∀ st : GASState,
      (ps.foldl (fun st p =>
        { st with patternCounts := bumpCount st.patternCounts p.type,
                  totalConfidence := st.totalConfidence + p.confidence })
        st).mixedFiles = st.mixedFiles := by
  induction ps with
  | nil => intro st; rfl
  | cons p rest ih => intro st; exact ih _

theorem gasStep_ai (st : GASState) (a : AICodeAnalysis) :
    (gasStep st a).aiGeneratedFiles =
      st.aiGeneratedFiles + (if 70 < a.aiLikelihood then 1 else 0) := by
  unfold gasStep
  rw [patternsFold_ai]
  by_cases h1 : 70 < a.aiLikelihood
  · rw [if_pos h1, if_pos h1]
  · rw [if_neg h1, if_neg h1]
    by_cases h2 : a.aiLikelihood < 30
    · rw [if_pos h2]
      rfl
    · rw [if_neg h2]
      rfl

theorem gasStep_human (st : GASState) (a : AICodeAnalysis) :
    (gasStep st a).humanWrittenFiles =
      st.humanWrittenFiles +
        (if ¬ 70 < a.aiLikelihood ∧ a.aiLikelihood < 30 then 1 else 0) := by
  unfold gasStep
  rw [patternsFold_human]
  by_cases h1 : 70 < a.aiLikelihood
  · rw [if_pos h1, if_neg (fun hc => hc.1 h1)]
    rfl
  · rw [if_neg h1]
    by_cases h2 : a.aiLikelihood < 30
    · rw [if_pos h2, if_pos ⟨h1, h2⟩]
    · rw [if_neg h2, if_neg (fun hc => h2 hc.2)]
      rfl

theorem gasStep_mixed (st : GASState) (a : AICodeAnalysis) :
    (gasStep st a).mixedFiles =
      st.mixedFiles +
        (if ¬ 70 < a.aiLikelihood ∧ ¬ a.aiLikelihood < 30 then 1 else 0) := by
  unfold gasStep
  rw [patternsFold_mixed]
  by_cases h1 : 70 < a.aiLikelihood
  · rw [if_pos h1, if_neg (fun hc => hc.1 h1)]
    rfl
  · rw [if_neg h1]
    by_cases h2 : a.aiLikelihood < 30
    · rw [if_pos h2, if_neg (fun hc => hc.2 h2)]
      rfl
    · rw [if_neg h2, if_pos ⟨h1, h2⟩]

theorem gasFold_ai (analyses : List AICodeAnalysis) :
    ∀ st : GASState,
      (analyses.foldl gasStep st).aiGeneratedFiles =
        st.aiGeneratedFiles +
          analyses.countP (fun a => decide (70 < a.aiLikelihood)) := by
  induction analyses with
  | nil => intro st; rfl
  | cons a rest ih =>
      intro st
      rw [List.foldl_cons, ih, gasStep_ai, List.countP_cons]
      simp only [decide_eq_true_eq]
      omega

theorem gasFold_human (analyses : List AICodeAnalysis) :
    ∀ st : GASState,
      (analyses.foldl gasStep st).humanWrittenFiles =
        st.humanWrittenFiles +
          analyses.countP (fun a =>
            decide (¬ 70 < a.aiLikelihood ∧ a.aiLikelihood < 30)) := by
  induction analyses with
  | nil => intro st; rfl
  | cons a rest ih =>
      intro st
      rw [List.foldl_cons, ih, gasStep_human, List.countP_cons]
      simp only [decide_eq_true_eq]
      omega

theorem gasFold_mixed (analyses : List AICodeAnalysis) :
    ∀ st : GASState,
      (analyses.foldl gasStep st).mixedFiles =
        st.mixedFiles +
          analyses.countP (fun a =>
            decide (¬ 70 < a.aiLikelihood ∧ ¬ a.aiLikelihood < 30)) := by
  induction analyses with
  | nil => intro st; rfl
  | cons a rest ih =>
      intro st
      rw [List.foldl_cons, ih, gasStep_mixed, List.countP_cons]
      simp only [decide_eq_true_eq]
      omega

theorem tri_countP (analyses : List AICodeAnalysis) :
    analyses.countP (fun a => decide (70 < a.aiLikelihood)) +
    analyses.countP (fun a =>
      decide (¬ 70 < a.aiLikelihood ∧ a.aiLikelihood < 30)) +
    analyses.countP (fun a =>
      decide (¬ 70 < a.aiLikelihood ∧ ¬ a.aiLikelihood < 30)) =
    analyses.length := by
  induction analyses with
  | nil => rfl
  | cons a rest ih =>
      simp only [List.countP_cons, List.length_cons, decide_eq_true_eq]
      by_cases h1 : 70 < a.aiLikelihood <;> by_cases h2 : a.aiLikelihood < 30 <;>
        simp only [h1, h2, not_true, not_false_eq_true, true_and, false_and,
          and_true, and_false, if_true, if_false, decide_True, decide_False,
          decide_eq_true_eq, not_false_iff] <;>
        omega

/-- Claim C10: `generateAISummary` buckets the files by the 70/30
likelihood thresholds — AI-generated when over 70, human-written when
under 30, mixed otherwise — and the three bucket counters always sum to
`totalFiles`. -/
theorem ai_summary_partition :
    ∀ analyses : List AICodeAnalysis,
      (generateAISummary analyses).totalFiles = analyses.length ∧
      (generateAISummary analyses).aiGeneratedFiles =
        (analyses.filter (fun a => decide (70 < a.aiLikelihood))).length ∧
      (generateAISummary analyses).humanWrittenFiles =
        (analyses.filter (fun a => decide (a.aiLikelihood < 30))).length ∧
      (generateAISummary analyses).mixedFiles =
        (analyses.filter (fun a =>
          decide (30 ≤ a.aiLikelihood ∧ a.aiLikelihood ≤ 70))).length ∧
      (generateAISummary analyses).aiGeneratedFiles +
        (generateAISummary analyses).humanWrittenFiles +
        (generateAISummary analyses).mixedFiles =
        (generateAISummary analyses).totalFiles := by
  intro analyses
  have hinit : (generateAISummary analyses).aiGeneratedFiles =
      (analyses.foldl gasStep
        { aiGeneratedFiles := 0, humanWrittenFiles := 0, mixedFiles := 0,
          totalAIScore := 0, patternCounts := [], totalConfidence := 0
          }).aiGeneratedFiles := rfl
  have hinit2 : (generateAISummary analyses).humanWrittenFiles =
      (analyses.foldl gasStep
        { aiGeneratedFiles := 0, humanWrittenFiles := 0, mixedFiles := 0,
          totalAIScore := 0, patternCounts := [], totalConfidence := 0
          }).humanWrittenFiles := rfl
  have hinit3 : (generateAISummary analyses).mixedFiles =
      (analyses.foldl gasStep
        { aiGeneratedFiles := 0, humanWrittenFiles := 0, mixedFiles := 0,
          totalAIScore := 0, patternCounts := [], totalConfidence := 0
          }).mixedFiles := rfl
  have ha := gasFold_ai analyses
    { aiGeneratedFiles := 0, humanWrittenFiles := 0, mixedFiles := 0,
      totalAIScore := 0, patternCounts := [], totalConfidence := 0 }
  have hh := gasFold_human analyses
    { aiGeneratedFiles := 0, humanWrittenFiles := 0, mixedFiles := 0,
      totalAIScore := 0, patternCounts := [], totalConfidence := 0 }
  have hm := gasFold_mixed analyses
    { aiGeneratedFiles := 0, humanWrittenFiles := 0, mixedFiles := 0,
      totalAIScore := 0, patternCounts := [], totalConfidence := 0 }
  have hcvt_h : analyses.countP (fun a =>
      decide (¬ 70 < a.aiLikelihood ∧ a.aiLikelihood < 30)) =
      analyses.countP (fun a => decide (a.aiLikelihood < 30)) := by
    apply List.countP_congr
    intro a _
    by_cases h : a.aiLikelihood < 30
    · have h70 : ¬ 70 < a.aiLikelihood := by
        intro hh
        exact absurd (hh.trans h) (by norm_num)
      simp [h, h70]
    · simp [h]
  have hcvt_m : analyses.countP (fun a =>
      decide (¬ 70 < a.aiLikelihood ∧ ¬ a.aiLikelihood < 30)) =
      analyses.countP (fun a =>
        decide (30 ≤ a.aiLikelihood ∧ a.aiLikelihood ≤ 70)) := by
    apply List.countP_congr
    intro a _
    by_cases h1 : 70 < a.aiLikelihood <;> by_cases h2 : a.aiLikelihood < 30
    · simp [h1, h2, not_lt.mp, show ¬ a.aiLikelihood ≤ 70 from not_le.mpr h1]
    · simp [h1, h2, show ¬ a.aiLikelihood ≤ 70 from not_le.mpr h1]
    · simp [h1, h2, not_lt.mp h1, show ¬ 30 ≤ a.aiLikelihood from not_le.mpr h2]
    · simp [h1, h2, not_lt.mp h1, not_lt.mp h2]
  have z1 : ({ aiGeneratedFiles := 0, humanWrittenFiles := 0, mixedFiles := 0, totalAIScore := 0, patternCounts := [], totalConfidence := 0 } : GASState).aiGeneratedFiles = 0 := rfl
  have z2 : ({ aiGeneratedFiles := 0, humanWrittenFiles := 0, mixedFiles := 0, totalAIScore := 0, patternCounts := [], totalConfidence := 0 } : GASState).humanWrittenFiles = 0 := rfl
  have z3 : ({ aiGeneratedFiles := 0, humanWrittenFiles := 0, mixedFiles := 0, totalAIScore := 0, patternCounts := [], totalConfidence := 0 } : GASState).mixedFiles = 0 := rfl
  refine ⟨rfl, ?_, ?_, ?_, ?_⟩
  · rw [hinit, ha, z1, List.countP_eq_length_filter, Nat.zero_add]
  · rw [hinit2, hh, z2, hcvt_h, List.countP_eq_length_filter, Nat.zero_add]
  · rw [hinit3, hm, z3, hcvt_m, List.countP_eq_length_filter, Nat.zero_add]
  · rw [hinit, hinit2, hinit3, ha, hh, hm, z1, z2, z3,
      show (generateAISummary analyses).totalFiles = analyses.length from rfl]
    have ht := tri_countP analyses
    omega

/-! ### Worst-files ranking and scan determinism (C4, C5) -/

theorem calculateFileScore_eq_spec (c : ComplexityMetrics) (issues lines : ℕ) :
    calculateFileScore c issues lines = worstFileScoreSpec c issues lines := by
  simp only [calculateFileScore, worstFileScoreSpec]
  split_ifs <;> first | rfl | (congr 1 <;> ring)

theorem mkWorstFile_eq_spec (fm : FileMetric) : mkWorstFile fm = mkWorstFileSpec fm := by
  simp only [mkWorstFile, mkWorstFileSpec, worstFileReasonSpec,
    calculateFileScore_eq_spec]

/-- Claim C4: every entry of the worst-files ranking carries the claimed
score (100 minus the capped complexity, issue and size penalties, clamped
at 0) and the priority-chosen reason (issue count, then complexity, then
size, then "multiple factors"), and `trends.worstFiles` is the first 10
entries of a score-ascending rearrangement of the per-file entries. -/
theorem worst_files_ranking (frs : List FileResult) (tc : ℚ) :
    (∀ fm : FileMetric, mkWorstFile fm = mkWorstFileSpec fm) ∧
    ∃ sorted : List WorstFile,
      List.Perm sorted ((aggregateResults frs tc).fileMetrics.map mkWorstFileSpec) ∧
      sorted.Pairwise (fun a b => a.score ≤ b.score) ∧
      (aggregateResults frs tc).trends.worstFiles = sorted.take 10 := by
  refine ⟨mkWorstFile_eq_spec, ?_⟩
  refine ⟨((frs.map mkFileMetric).map mkWorstFile).mergeSort
    (fun a b => decide (a.score ≤ b.score)), ?_, ?_, rfl⟩
  · have hperm := List.mergeSort_perm ((frs.map mkFileMetric).map mkWorstFile)
      (fun a b => decide (a.score ≤ b.score))
    have hmap : (frs.map mkFileMetric).map mkWorstFile
        = (aggregateResults frs tc).fileMetrics.map mkWorstFileSpec := by
      show (frs.map mkFileMetric).map mkWorstFile
          = (frs.map mkFileMetric).map mkWorstFileSpec
      exact List.map_congr_left (fun fm _ => mkWorstFile_eq_spec fm)
    exact hmap ▸ hperm
  · have hsorted := @List.sorted_mergeSort WorstFile
      (fun a b : WorstFile => decide (a.score ≤ b.score))
      (fun a b c hab hbc => by
        simp only [decide_eq_true_eq] at *; exact le_trans hab hbc)
      (fun a b => by
        rcases le_total a.score b.score with h | h <;> simp [h])
      ((frs.map mkFileMetric).map mkWorstFile)
    exact hsorted.imp (fun hab => by simpa using hab)

/-- Claim C5: scanning is deterministic — two runs of the whole
per-file analysis and aggregation on equal file sets and equal
test-coverage values produce equal `ScanResult` values; no field of the
embedded `ScanResult` depends on anything but the inputs. -/
theorem scan_deterministic (files1 files2 : List (String × String))
    (tc1 tc2 : ℚ) (h1 : files1 = files2) (h2 : tc1 = tc2) :
    scanAndAggregate files1 tc1 = scanAndAggregate files2 tc2 := by
  rw [h1, h2]

theorem scan_deterministic_witness :
    scanAndAggregate [("a.ts", "let x = 1")] 50
      = scanAndAggregate [("a.ts", "let x = 1")] 50 :=
  scan_deterministic [("a.ts", "let x = 1")] [("a.ts", "let x = 1")] 50 50
    rfl rfl

end TD
